import Mathlib

/-!
Verification of the CheckFront → Google Calendar loader:
a shallow embedding of the aggregation and reconciliation core
(`cf_middle_layer.py`, `gcal_client.py`, `cf_client.py`, `helpers.py`)
with theorems settling the specification claims.
-/

/-- Python/JSON-style values, as used by the dict-shaped payloads of the source.
Dicts and lists are stored in cons form (constructors `dcons`/`dnil` and
`lcons`/`lnil`) so that equality is structural and computable; the functions
`Val.dict` and `Val.list` build them from ordinary Lean lists.  Dict entries
keep insertion order (Python 3.7+ dicts preserve insertion order); the views
compared by the reconciler are built by `norm_event_view` in one fixed key
order, so structural equality coincides with Python `==` on them. -/
inductive Val where
  | str (s : String)
  | int (n : Int)
  | bool (b : Bool)
  | none
  | dnil
  | dcons (k : String) (v rest : Val)
  | lnil
  | lcons (v rest : Val)
deriving DecidableEq, Repr

/-- Build a dict value from an association list (insertion order preserved). -/
def Val.dict : List (String × Val) → Val
  | [] => .dnil
  | (k, v) :: r => .dcons k v (Val.dict r)

/-- Build a list value from a Lean list. -/
def Val.list : List Val → Val
  | [] => .lnil
  | v :: r => .lcons v (Val.list r)

/-- Python truthiness on `Val` (empty string/dict/list, `0`, `False`, `None`
are falsy). -/
def pyTruthy : Val → Bool
  | .str s => s != ""
  | .int n => n != 0
  | .bool b => b
  | .none => false
  | .dnil => false
  | .dcons _ _ _ => true
  | .lnil => false
  | .lcons _ _ => true

/-- Python `d.get(k)` on a dict value: the stored value, or `None` when the
key is absent (also `None` on a non-dict, which the source never does). -/
def dictGet : Val → String → Val
  | .dcons k v rest, key => if k = key then v else dictGet rest key
  | _, _ => Val.none

/-- `d[k] = v` on a dict value: replace in place if present, else append. -/
def dictSet : Val → String → Val → Val
  | .dcons k v rest, key, nv =>
      if k = key then .dcons k nv rest else .dcons k v (dictSet rest key nv)
  | .dnil, key, nv => .dcons key nv .dnil
  | other, _, _ => other

/-- Python `a or b` specialised to the `x or default` idiom of the source. -/
def pyOr (a b : Val) : Val := if pyTruthy a then a else b

/-- Python `str.rstrip()` (trailing whitespace removed). -/
def pyRstrip (s : String) : String :=
  String.mk ((s.toList.reverse.dropWhile (fun c => c.isWhitespace)).reverse)

/-- Python `str.strip()` (leading and trailing whitespace removed). -/
def pyStrip (s : String) : String :=
  String.mk (((s.toList.dropWhile (fun c => c.isWhitespace)).reverse.dropWhile
      (fun c => c.isWhitespace)).reverse)

/-- Python `str.lower()` (ASCII case folding; the source only lowercases
email addresses). -/
def pyLower (s : String) : String := String.mk (s.toList.map Char.toLower)

/-- Insert into a sorted list, before the first element not smaller
(a stable insertion position). -/
def insertSorted {α : Type} (le : α → α → Bool) (a : α) : List α → List α
  | [] => [a]
  | b :: r => if le a b then a :: b :: r else b :: insertSorted le a r

/-- Stable sort (insertion sort).  Python's `sorted`/`list.sort` are stable
sorts, and a stable sort's output is uniquely determined by the key order and
the input order, so this computes exactly what the source's sorts compute. -/
def stableSort {α : Type} (le : α → α → Bool) : List α → List α
  | [] => []
  | a :: r => insertSorted le a (stableSort le r)

theorem mem_insertSorted {α : Type} (le : α → α → Bool) (a x : α) :
    ∀ l : List α, x ∈ insertSorted le a l ↔ x = a ∨ x ∈ l
  | [] => by simp [insertSorted]
  | b :: r => by
      by_cases h : le a b = true
      · simp [insertSorted, h]
      · simp only [insertSorted, if_neg h, List.mem_cons, mem_insertSorted le a x r]
        tauto

theorem mem_stableSort {α : Type} (le : α → α → Bool) (x : α) :
    ∀ l : List α, x ∈ stableSort le l ↔ x ∈ l
  | [] => Iff.rfl
  | a :: r => by
      simp [stableSort, mem_insertSorted, mem_stableSort le x r]

/-- `sorted({...})` on a set of strings: deduplicate, then sort ascending. -/
def sortedSet (l : List String) : List String :=
  stableSort (fun a b => a ≤ b) (l.eraseDups)

/- ===================== gcal_client.py : the Calendar Reconciler ===================== -/

/-- The attendee-email set comprehension of `_norm_event_view`:
`{(a.get("email") or "").lower() for a in e["attendees"] if a.get("email")}`.
Attendee entries without a truthy `email` contribute nothing; the calendar
service only produces string emails (a non-string truthy email would raise
in Python and is not modelled). -/
def attendee_emails : Val → List String
  | .lcons a rest =>
      (match dictGet a "email" with
        | .str s => if s ≠ "" then pyLower s :: attendee_emails rest else attendee_emails rest
        | _ => attendee_emails rest)
  | _ => []

/-- `_norm_event_view` (`gcal_client.py`): project an event into just the
fields the engine manages, normalised. -/
def norm_event_view (e : Val) : Val :=
  if !pyTruthy e then Val.dict [] else
  let summary := match pyOr (dictGet e "summary") (Val.str "") with
    | .str s => Val.str (pyStrip s) | v => v
  let descr := match pyOr (dictGet e "description") (Val.str "") with
    | .str s => Val.str (pyRstrip s) | v => v
  let startVal := Val.dict [("dateTime", dictGet (pyOr (dictGet e "start") (Val.dict [])) "dateTime"),
                           ("timeZone", dictGet (pyOr (dictGet e "start") (Val.dict [])) "timeZone")]
  let endVal := Val.dict [("dateTime", dictGet (pyOr (dictGet e "end") (Val.dict [])) "dateTime"),
                          ("timeZone", dictGet (pyOr (dictGet e "end") (Val.dict [])) "timeZone")]
  let privVal := pyOr (dictGet (pyOr (dictGet e "extendedProperties") (Val.dict [])) "private") (Val.dict [])
  let base := Val.dict
    [("summary", summary),
     ("description", descr),
     ("location", pyOr (dictGet e "location") Val.none),
     ("colorId", pyOr (dictGet e "colorId") Val.none),
     ("start", startVal),
     ("end", endVal),
     ("reminders", pyOr (dictGet e "reminders") Val.none),
     ("extendedProperties", Val.dict [("private", privVal)]),
     ("attendees", Val.none)]
  let att := dictGet e "attendees"
  if pyTruthy att then
    let addrs := sortedSet (attendee_emails att)
    if addrs.isEmpty then base
    else dictSet base "attendees" (Val.list (addrs.map (fun a => Val.dict [("email", Val.str a)])))
  else base

/-- `_norm_body_view` (`gcal_client.py`): same projection for the body to send. -/
def norm_body_view (b : Val) : Val := norm_event_view b

/-- One `patch[key] = desired_view.get(key)` comparison of `_diff_for_patch`
for a simple top-level field. -/
def diffEntry (cur des : Val) (k : String) : List (String × Val) :=
  if dictGet cur k = dictGet des k then [] else [(k, dictGet des k)]

/-- One start/end comparison of `_diff_for_patch`: `(view.get(key) or {})`. -/
def diffEntryOrEmpty (cur des : Val) (k : String) : List (String × Val) :=
  if pyOr (dictGet cur k) (Val.dict []) = pyOr (dictGet des k) (Val.dict []) then []
  else [(k, dictGet des k)]

/-- `_diff_for_patch` (`gcal_client.py`): minimal patch dict with only changed
fields; the trailing filter drops `None` values ("don't send None unless you
intend to clear a field"). -/
def diff_for_patch (cur des : Val) : List (String × Val) :=
  let p1 := diffEntry cur des "summary" ++ diffEntry cur des "description" ++
            diffEntry cur des "location" ++ diffEntry cur des "colorId" ++
            diffEntry cur des "reminders"
  let p2 := diffEntryOrEmpty cur des "start" ++ diffEntryOrEmpty cur des "end"
  let curPriv := dictGet (pyOr (dictGet cur "extendedProperties") (Val.dict [])) "private"
  let desPriv := dictGet (pyOr (dictGet des "extendedProperties") (Val.dict [])) "private"
  let p3 := if curPriv = desPriv then []
            else [("extendedProperties", Val.dict [("private", pyOr desPriv (Val.dict []))])]
  let p4 := if dictGet cur "attendees" = dictGet des "attendees" then []
            else [("attendees", dictGet des "attendees")]
  (p1 ++ p2 ++ p3 ++ p4).filter (fun kv => kv.2 ≠ Val.none)

/-- Mutation counters returned by `sync_calendar`. -/
structure SyncCounts where
  inserted : Nat
  patched : Nat
  unchanged : Nat
  deleted : Nat
deriving Repr, DecidableEq

/-- Lookup in the `eventId → normalized view` map built by
`fetch_existing_synced_events`. -/
def lookupStrV (m : List (String × Val)) (k : String) : Option Val :=
  (m.find? (fun p => p.1 = k)).map (fun p => p.2)

/-- The upsert pass body of `sync_calendar` for one `(event_id, desired)` slot.
An insert (conflict-free path) bumps `inserted`; an existing entry is patched
only when `_diff_for_patch` is non-empty, else counted unchanged. -/
def upsertStep (existing : List (String × Val)) (acc : SyncCounts) (slot : String × Val) :
    SyncCounts :=
  let desired_view := norm_body_view slot.2
  match lookupStrV existing slot.1 with
  | Option.none => { acc with inserted := acc.inserted + 1 }
  | some current_view =>
      if diff_for_patch current_view desired_view = [] then
        { acc with unchanged := acc.unchanged + 1 }
      else { acc with patched := acc.patched + 1 }

/-- `sync_calendar` (`gcal_client.py`), with the external calendar state given
as the key→normalized-view map that `fetch_existing_synced_events` returns and
mutating service calls modelled by the counters.  The orphan-deletion pass
deletes every existing key absent from the desired slots. -/
def sync_calendar (existing : List (String × Val)) (slots : List (String × Val))
    (delete_orphans : Bool) : SyncCounts :=
  let up := slots.foldl (upsertStep existing) ⟨0, 0, 0, 0⟩
  let deleted :=
    if delete_orphans then
      (existing.filter (fun q => !(slots.map Prod.fst).contains q.1)).length
    else 0
  { up with deleted := deleted }

/-- `_diff_for_patch` of a view against itself is the empty patch. -/
theorem diff_for_patch_self (v : Val) : diff_for_patch v v = [] := by
  simp [diff_for_patch, diffEntry, diffEntryOrEmpty]

theorem upsert_fold_counts (existing : List (String × Val)) :
    ∀ (slots : List (String × Val)) (acc : SyncCounts),
      (∀ p ∈ slots, lookupStrV existing p.1 = some (norm_body_view p.2)) →
      (slots.foldl (upsertStep existing) acc).inserted = acc.inserted ∧
      (slots.foldl (upsertStep existing) acc).patched = acc.patched
  | [], acc, _ => ⟨rfl, rfl⟩
  | p :: rest, acc, h => by
      have hp := h p (List.mem_cons_self p rest)
      have hrest : ∀ q ∈ rest, lookupStrV existing q.1 = some (norm_body_view q.2) :=
        fun q hq => h q (List.mem_cons_of_mem p hq)
      have step : upsertStep existing acc p = { acc with unchanged := acc.unchanged + 1 } := by
        simp [upsertStep, hp, diff_for_patch_self]
      rw [List.foldl_cons, step]
      exact upsert_fold_counts existing rest _ hrest

/-- C1. Reconciliation is idempotent: if every desired slot's identity key maps
to an existing engine-owned entry whose normalized view equals the desired
body's normalized view, and every existing engine-owned key is in the desired
set, then `sync_calendar` performs zero mutating calls:
`inserted = 0`, `patched = 0`, `deleted = 0` (for either orphan-deletion flag). -/
theorem C1_reconcile_idempotent (existing : List (String × Val))
    (slots : List (String × Val)) (dflag : Bool)
    (h1 : ∀ p ∈ slots, lookupStrV existing p.1 = some (norm_body_view p.2))
    (h2 : ∀ q ∈ existing, q.1 ∈ slots.map Prod.fst) :
    (sync_calendar existing slots dflag).inserted = 0 ∧
    (sync_calendar existing slots dflag).patched = 0 ∧
    (sync_calendar existing slots dflag).deleted = 0 := by
  have hfold := upsert_fold_counts existing slots ⟨0, 0, 0, 0⟩ h1
  have hdel : existing.filter (fun q => !(slots.map Prod.fst).contains q.1) = [] := by
    apply List.filter_eq_nil_iff.mpr
    intro q hq
    have hc : (slots.map Prod.fst).contains q.1 = true :=
      List.elem_eq_true_of_mem (h2 q hq)
    simp only [hc, Bool.not_true, Bool.false_eq_true, not_false_eq_true]
  have hdeleted : (sync_calendar existing slots dflag).deleted =
      if dflag then (existing.filter (fun q => !(slots.map Prod.fst).contains q.1)).length
      else 0 := rfl
  refine ⟨by simpa [sync_calendar] using hfold.1,
          by simpa [sync_calendar] using hfold.2, ?_⟩
  rw [hdeleted, hdel]
  cases dflag <;> simp

def c1Body : Val := Val.dict
  [("summary", Val.str "Camp weekend"),
   ("start", Val.dict [("dateTime", Val.str "2025-01-06T08:00:00+11:00"),
                       ("timeZone", Val.str "Australia/Sydney")]),
   ("end", Val.dict [("dateTime", Val.str "2025-01-06T17:00:00+11:00"),
                     ("timeZone", Val.str "Australia/Sydney")]),
   ("colorId", Val.str "7"),
   ("extendedProperties", Val.dict [("private",
       Val.dict [("syncKey", Val.str "cf:ABC123"), ("source", Val.str "checkfront-sync")])])]

/-- The simple top-level fields `_diff_for_patch` compares directly. -/
def simpleFields : List String := ["summary", "description", "location", "colorId", "reminders"]

/-- The engine-managed private extended properties of a view. -/
def privOf (v : Val) : Val :=
  dictGet (pyOr (dictGet v "extendedProperties") (Val.dict [])) "private"

/-- The two views agree on every managed field except (possibly) those in `ex`:
equal simple fields, equal start/end objects, equal private extended
properties, equal attendee lists. -/
def managedAgreeExcept (cur des : Val) (ex : List String) : Prop :=
  (∀ k ∈ simpleFields, k ∉ ex → dictGet cur k = dictGet des k) ∧
  dictGet cur "start" = dictGet des "start" ∧
  dictGet cur "end" = dictGet des "end" ∧
  privOf cur = privOf des ∧
  dictGet cur "attendees" = dictGet des "attendees"

instance (cur des : Val) (ex : List String) :
    Decidable (managedAgreeExcept cur des ex) := by
  unfold managedAgreeExcept
  infer_instance

/-- C2 (amended). Diff minimality: if the current and desired views agree on
every managed field the patch is empty; if they differ only in `description`
and the desired description is not `None`, the patch is exactly the
description field.  (As the counterexample shows, when the single differing
field's desired value is `None` — e.g. a cleared `location` — the claim as
stated fails: the trailing `None` filter yields an empty patch instead.) -/
theorem C2_diff_minimal_amended (cur des : Val) :
    (managedAgreeExcept cur des [] → diff_for_patch cur des = []) ∧
    (managedAgreeExcept cur des ["description"] →
     dictGet cur "description" ≠ dictGet des "description" →
     dictGet des "description" ≠ Val.none →
     diff_for_patch cur des = [("description", dictGet des "description")]) := by
  constructor
  · rintro ⟨hs, hstart, hend, hpriv, hatt⟩
    simp only [privOf] at hpriv
    have h1 := hs "summary" (by simp [simpleFields]) (by simp)
    have h2 := hs "description" (by simp [simpleFields]) (by simp)
    have h3 := hs "location" (by simp [simpleFields]) (by simp)
    have h4 := hs "colorId" (by simp [simpleFields]) (by simp)
    have h5 := hs "reminders" (by simp [simpleFields]) (by simp)
    simp [diff_for_patch, diffEntry, diffEntryOrEmpty, h1, h2, h3, h4, h5,
      hstart, hend, hpriv, hatt, privOf]
  · rintro ⟨hs, hstart, hend, hpriv, hatt⟩ hdiff hne
    simp only [privOf] at hpriv
    have h1 := hs "summary" (by simp [simpleFields]) (by simp)
    have h3 := hs "location" (by simp [simpleFields]) (by simp)
    have h4 := hs "colorId" (by simp [simpleFields]) (by simp)
    have h5 := hs "reminders" (by simp [simpleFields]) (by simp)
    simp [diff_for_patch, diffEntry, diffEntryOrEmpty, h1, h3, h4, h5,
      hstart, hend, hpriv, hatt, privOf, hdiff, hne]

def c2wCur : Val := norm_event_view (Val.dict
  [("summary", Val.str "Hall hire"), ("description", Val.str "old notes")])

def c2wDes : Val := norm_event_view (Val.dict
  [("summary", Val.str "Hall hire"), ("description", Val.str "new notes")])

theorem C2_diff_minimal_amended_witness :
    managedAgreeExcept c2wCur c2wDes [] = False ∧
    managedAgreeExcept c2wCur c2wDes ["description"] ∧
    dictGet c2wCur "description" ≠ dictGet c2wDes "description" ∧
    dictGet c2wDes "description" ≠ Val.none ∧
    diff_for_patch c2wCur c2wDes = [("description", Val.str "new notes")] := by
  refine ⟨by decide, by decide, by decide, by decide, ?_⟩
  have h := (C2_diff_minimal_amended c2wCur c2wDes).2 (by decide) (by decide) (by decide)
  rw [h]
  decide

def c2xCur : Val := norm_event_view (Val.dict
  [("summary", Val.str "Hall hire"), ("location", Val.str "Scout Hall A")])

def c2xDes : Val := norm_event_view (Val.dict
  [("summary", Val.str "Hall hire")])

/-- C2 (counterexample).  Two normalized views that differ in exactly one
managed field (`location`; every other managed field agrees), for which the
computed patch is nevertheless empty — the desired `location` is `None` and
the trailing filter drops it, so the patch does not "contain exactly that
field" as claimed. -/
theorem C2_counterexample :
    dictGet c2xCur "location" ≠ dictGet c2xDes "location" ∧
    managedAgreeExcept c2xCur c2xDes ["location"] ∧
    diff_for_patch c2xCur c2xDes = [] := by decide

theorem C1_reconcile_idempotent_witness :
    (∀ p ∈ [("ev1", c1Body)],
        lookupStrV [("ev1", norm_body_view c1Body)] p.1 = some (norm_body_view p.2)) ∧
    (∀ q ∈ [("ev1", norm_body_view c1Body)], q.1 ∈ ([("ev1", c1Body)].map Prod.fst)) ∧
    (sync_calendar [("ev1", norm_body_view c1Body)] [("ev1", c1Body)] true).inserted = 0 ∧
    (sync_calendar [("ev1", norm_body_view c1Body)] [("ev1", c1Body)] true).patched = 0 ∧
    (sync_calendar [("ev1", norm_body_view c1Body)] [("ev1", c1Body)] true).deleted = 0 := by
  refine ⟨by decide, by decide, ?_⟩
  exact C1_reconcile_idempotent _ _ true (by decide) (by decide)

deriving instance DecidableEq for Except

/- ===================== time model ===================== -/

/-- Microseconds per day.  Timestamps are modelled as integer microseconds of
local wall-clock time since 0001-01-01 00:00:00 (the proleptic Gregorian
origin Python's `datetime.toordinal` uses); the run's timezone is a fixed
UTC offset, so all wall-clock arithmetic of the source is plain integer
arithmetic here.  Lean's `Int` division/`%` are Euclidean, which for the
positive divisors used below coincide with Python's floor `//` and `%`. -/
def DAYU : Int := 86400000000

example : (-7 : Int) / 2 = -4 := by decide
example : (-1 : Int) % 7 = 6 := by decide

/-- Is `y` a (proleptic Gregorian) leap year. -/
def isLeap (y : Nat) : Bool := (y % 4 == 0 && y % 100 != 0) || y % 400 == 0

/-- Days before month `m` in a year (1-based month). -/
def daysBeforeMonth (leap : Bool) (m : Nat) : Nat :=
  [0, 31, 59, 90, 120, 151, 181, 212, 243, 273, 304, 334].getD (m - 1) 0 +
    (if leap && decide (2 < m) then 1 else 0)

/-- Python's `date(y, m, d).toordinal()`: proleptic Gregorian ordinal,
with `date(1, 1, 1).toordinal() = 1`. -/
def dateOrdinal (y m d : Nat) : Nat :=
  365 * (y - 1) + (y - 1) / 4 - (y - 1) / 100 + (y - 1) / 400 +
    daysBeforeMonth (isLeap y) m + d

/-- Midnight (local wall time) of the given calendar date, in microseconds. -/
def mkDT (y m d : Nat) : Int := ((dateOrdinal y m d - 1 : Nat) : Int) * DAYU

/-- `.date().toordinal()` of a timestamp. -/
def dateOf (t : Int) : Int := t / DAYU + 1

/-- Python `datetime.weekday()`: Monday = 0 … Sunday = 6. -/
def weekdayOf (t : Int) : Int := (t / DAYU) % 7

example : mkDT 1970 1 1 = 719162 * DAYU := by decide
example : weekdayOf (mkDT 2025 1 6) = 0 := by decide

/-- The raw value of a `start_date`/`end_date` field, pre-classified by how
`_datetime_or_none`'s `strptime(v, "%Y%m%d")` treats it: absent/falsy,
the literal string `"0"`, truthy-but-unparseable, or a parseable date. -/
inductive RawDate where
  | missing
  | zero
  | invalid
  | ymd (y m d : Nat)
deriving DecidableEq, Repr

/-- `_datetime_or_none` (`helpers.py`): parse `"%Y%m%d"` and attach the run's
timezone, or `None` on any failure (absent values, `"0"`, junk). -/
def datetime_or_none : RawDate → Option Int
  | .ymd y m d => some (mkDT y m d)
  | _ => Option.none

/-- Python truthiness of the raw date field (`""`/`None` falsy, any other
string — including `"0"` — truthy). -/
def truthyRaw : RawDate → Bool
  | .missing => false
  | _ => true

/- ===================== cf_middle_layer.py : recurrence expansion ===================== -/

/-- `RFC5545_DAYS` (`cf_middle_layer.py`). -/
def RFC5545_DAYS : List String := ["mon", "tue", "wed", "thu", "fri", "sat", "sun"]

/-- Structural worker for `emitWeekly`: the loop body with an explicit
iteration bound (so the definition reduces in the kernel). -/
def emitWeeklyF : Nat → Int → Int → List Int
  | 0, _, _ => []
  | fuel + 1, we, cur => if cur < we then cur :: emitWeeklyF fuel we (cur + 7 * DAYU) else []

/-- The `while cur < window_end: out.append((cur, cur)); cur += 1 week` loop
of `_item_occurrences`, run with a provably sufficient iteration bound. -/
def emitWeekly (we : Int) (cur : Int) : List Int :=
  emitWeeklyF ((we - cur).toNat / 604800000000 + 1) we cur

/-- Structural worker for `advanceWeeks`. -/
def advanceWeeksF : Nat → Int → Int → Int
  | 0, _, first => first
  | fuel + 1, ws, first =>
      if first < ws then advanceWeeksF fuel ws (first + 7 * DAYU) else first

/-- The `while first < window_start: first += timedelta(weeks=1)` loop of
`_item_occurrences`, run with a provably sufficient iteration bound. -/
def advanceWeeks (ws : Int) (first : Int) : Int :=
  advanceWeeksF ((ws - first).toNat / 604800000000 + 1) ws first

/-- Structural worker for `emitDaily`. -/
def emitDailyF : Nat → Int → Int → List Int
  | 0, _, _ => []
  | fuel + 1, we, cur => if cur < we then cur :: emitDailyF fuel we (cur + DAYU) else []

/-- The `while cur < window_end: out.append((cur, cur)); cur += 1 day` loop of
`_item_daily_occurrences`, run with a provably sufficient iteration bound. -/
def emitDaily (we : Int) (cur : Int) : List Int :=
  emitDailyF ((we - cur).toNat / 86400000000 + 1) we cur

theorem emitWeeklyF_stable : ∀ (f1 f2 : Nat) (we cur : Int),
    we - cur ≤ f1 * (7 * DAYU) → we - cur ≤ f2 * (7 * DAYU) →
    emitWeeklyF f1 we cur = emitWeeklyF f2 we cur
  | 0, 0, _, _, _, _ => rfl
  | 0, f2 + 1, we, cur, h1, _ => by
      have : ¬ cur < we := by simp only [DAYU] at h1; omega
      simp [emitWeeklyF, this]
  | f1 + 1, 0, we, cur, _, h2 => by
      have : ¬ cur < we := by simp only [DAYU] at h2; omega
      simp [emitWeeklyF, this]
  | f1 + 1, f2 + 1, we, cur, h1, h2 => by
      simp only [emitWeeklyF]
      split
      next h =>
        rw [emitWeeklyF_stable f1 f2 we (cur + 7 * DAYU)
          (by simp only [DAYU] at *; push_cast at *; omega)
          (by simp only [DAYU] at *; push_cast at *; omega)]
      next h => rfl

theorem emitWeekly_unfold (we cur : Int) :
    emitWeekly we cur = if cur < we then cur :: emitWeekly we (cur + 7 * DAYU) else [] := by
  show emitWeeklyF ((we - cur).toNat / 604800000000 + 1) we cur = _
  rw [emitWeeklyF]
  split
  next h =>
    have hs := emitWeeklyF_stable ((we - cur).toNat / 604800000000)
        ((we - (cur + 7 * DAYU)).toNat / 604800000000 + 1) we (cur + 7 * DAYU)
        (by simp only [DAYU]; omega) (by simp only [DAYU]; omega)
    rw [hs]
    rfl
  next h => rfl

theorem advanceWeeksF_stable : ∀ (f1 f2 : Nat) (ws first : Int),
    ws - first ≤ f1 * (7 * DAYU) → ws - first ≤ f2 * (7 * DAYU) →
    advanceWeeksF f1 ws first = advanceWeeksF f2 ws first
  | 0, 0, _, _, _, _ => rfl
  | 0, f2 + 1, ws, first, h1, _ => by
      have : ¬ first < ws := by simp only [DAYU] at h1; omega
      simp [advanceWeeksF, this]
  | f1 + 1, 0, ws, first, _, h2 => by
      have : ¬ first < ws := by simp only [DAYU] at h2; omega
      simp [advanceWeeksF, this]
  | f1 + 1, f2 + 1, ws, first, h1, h2 => by
      simp only [advanceWeeksF]
      split
      next h =>
        rw [advanceWeeksF_stable f1 f2 ws (first + 7 * DAYU)
          (by simp only [DAYU] at *; push_cast at *; omega)
          (by simp only [DAYU] at *; push_cast at *; omega)]
      next h => rfl

theorem advanceWeeks_unfold (ws first : Int) :
    advanceWeeks ws first =
      if first < ws then advanceWeeks ws (first + 7 * DAYU) else first := by
  show advanceWeeksF ((ws - first).toNat / 604800000000 + 1) ws first = _
  rw [advanceWeeksF]
  split
  next h =>
    have hs := advanceWeeksF_stable ((ws - first).toNat / 604800000000)
        ((ws - (first + 7 * DAYU)).toNat / 604800000000 + 1) ws (first + 7 * DAYU)
        (by simp only [DAYU]; omega) (by simp only [DAYU]; omega)
    rw [hs]
    rfl
  next h => rfl

theorem emitDailyF_stable : ∀ (f1 f2 : Nat) (we cur : Int),
    we - cur ≤ f1 * DAYU → we - cur ≤ f2 * DAYU →
    emitDailyF f1 we cur = emitDailyF f2 we cur
  | 0, 0, _, _, _, _ => rfl
  | 0, f2 + 1, we, cur, h1, _ => by
      have : ¬ cur < we := by simp only [DAYU] at h1; omega
      simp [emitDailyF, this]
  | f1 + 1, 0, we, cur, _, h2 => by
      have : ¬ cur < we := by simp only [DAYU] at h2; omega
      simp [emitDailyF, this]
  | f1 + 1, f2 + 1, we, cur, h1, h2 => by
      simp only [emitDailyF]
      split
      next h =>
        rw [emitDailyF_stable f1 f2 we (cur + DAYU)
          (by simp only [DAYU] at *; push_cast at *; omega)
          (by simp only [DAYU] at *; push_cast at *; omega)]
      next h => rfl

theorem emitDaily_unfold (we cur : Int) :
    emitDaily we cur = if cur < we then cur :: emitDaily we (cur + DAYU) else [] := by
  show emitDailyF ((we - cur).toNat / 86400000000 + 1) we cur = _
  rw [emitDailyF]
  split
  next h =>
    have hs := emitDailyF_stable ((we - cur).toNat / 86400000000)
        ((we - (cur + DAYU)).toNat / 86400000000 + 1) we (cur + DAYU)
        (by simp only [DAYU]; omega) (by simp only [DAYU]; omega)
    rw [hs]
    rfl
  next h => rfl

/-- `_item_daily_occurrences` (`cf_middle_layer.py`): one `(cur, cur)`
occurrence per day from `window_start` while before `window_end`, then the
(no-op) sort by start. -/
def item_daily_occurrences (ws we : Int) : List (Int × Int) :=
  stableSort (fun a b => a.1 ≤ b.1) ((emitDaily we ws).map (fun c => (c, c)))

/-- The per-weekday block of `_item_occurrences`: `first_day` is the first
target weekday on/after the anchor `s`; if it precedes the window it is
advanced by whole weeks (`delta_days // 7 * 7`, then week steps); then one
occurrence per week while before `window_end`. -/
def weekday_occurrences (s ws we : Int) (target : Nat) : List Int :=
  let first0 := s + ((((target : Int) - (s / DAYU) % 7) % 7) * DAYU)
  let first :=
    if first0 < ws then
      advanceWeeks ws (first0 + ((ws - first0) / DAYU / 7 * 7) * DAYU)
    else first0
  emitWeekly we first

/-- An item event, with the fields `cf_middle_layer.py` reads off the raw
event dict: `enabled` truthiness, `status`, the two raw date strings, the
`unlimited` flag, the `repeat` weekday list (`repeatDays` here; empty models
a falsy/absent value), and the stringified non-null `apply_to.item_id` /
`apply_to.category_id` lists. -/
structure CFEvent where
  enabled : Bool
  status : Option String
  start_date : RawDate
  end_date : RawDate
  unlimited : Option Int
  repeatDays : List String
  apply_to_items : List String
  apply_to_categories : List String
deriving DecidableEq, Repr

/-- `_event_applies_to_ids` (`cf_middle_layer.py`): blanks dropped,
deduplicated, sorted. -/
def event_applies_to_ids (ev : CFEvent) : List String :=
  sortedSet (ev.apply_to_items.filter (fun i => i ≠ ""))

/-- `_event_applies_to_categories` (`cf_middle_layer.py`). -/
def event_applies_to_categories (ev : CFEvent) : List String :=
  sortedSet (ev.apply_to_categories.filter (fun i => i ≠ ""))

/-- `_item_occurrences` (`cf_middle_layer.py`).  The anchor `s` is the parsed
`start_date` when that field is truthy, else `window_start`.  With no
`repeat` list a single `(s, itemend)` span is emitted (unclamped).  With a
`repeat` list, each valid weekday contributes `weekday_occurrences`, and the
result is sorted by start.  If the anchor failed to parse (`s = None`),
Python raises a `TypeError` inside the weekday arithmetic (`weekdayFoldStep`
below); that is the `Except.error` case. -/
def weekdayFoldStep (s : Option Int) (ws we : Int) (acc : List Int) (wd : String) :
    Except String (List Int) :=
  if wd ∈ RFC5545_DAYS then
    match s with
    | some sv => Except.ok (acc ++ weekday_occurrences sv ws we (RFC5545_DAYS.indexOf wd))
    | Option.none => Except.error "TypeError: weekday arithmetic on None start"
  else Except.ok acc

def item_occurrences (ev : CFEvent) (ws we : Int) :
    Except String (List (Option Int × Option Int)) :=
  let s := if truthyRaw ev.start_date then datetime_or_none ev.start_date else some ws
  let itemend := datetime_or_none ev.end_date
  if ev.repeatDays.isEmpty then
    Except.ok [(s, itemend)]
  else
    match ev.repeatDays.foldlM (weekdayFoldStep s ws we) [] with
    | Except.error e => Except.error e
    | Except.ok occs =>
        Except.ok ((stableSort (fun a b => a ≤ b) occs).map
          (fun c => ((some c : Option Int), (some c : Option Int))))

/- ===================== recurrence loop characterizations ===================== -/

theorem mem_emitWeekly (we cur t : Int) :
    t ∈ emitWeekly we cur ↔ ∃ k : Nat, t = cur + k * (7 * DAYU) ∧ t < we := by
  rw [emitWeekly_unfold]
  split
  next h =>
    rw [List.mem_cons, mem_emitWeekly we (cur + 7 * DAYU) t]
    constructor
    · rintro (rfl | ⟨k, rfl, hlt⟩)
      · exact ⟨0, by simp, h⟩
      · refine ⟨k + 1, by push_cast; ring, hlt⟩
    · rintro ⟨k, rfl, hlt⟩
      cases k with
      | zero => left; simp
      | succ k => right; exact ⟨k, by push_cast; ring, hlt⟩
  next h =>
    simp only [List.not_mem_nil, false_iff, not_exists, not_and]
    intro k hk
    simp only [DAYU] at hk
    omega
termination_by (we - cur).toNat
decreasing_by simp only [DAYU]; omega

theorem mem_emitDaily (we cur t : Int) :
    t ∈ emitDaily we cur ↔ ∃ k : Nat, t = cur + k * DAYU ∧ t < we := by
  rw [emitDaily_unfold]
  split
  next h =>
    rw [List.mem_cons, mem_emitDaily we (cur + DAYU) t]
    constructor
    · rintro (rfl | ⟨k, rfl, hlt⟩)
      · exact ⟨0, by simp, h⟩
      · refine ⟨k + 1, by push_cast; ring, hlt⟩
    · rintro ⟨k, rfl, hlt⟩
      cases k with
      | zero => left; simp
      | succ k => right; exact ⟨k, by push_cast; ring, hlt⟩
  next h =>
    simp only [List.not_mem_nil, false_iff, not_exists, not_and]
    intro k hk
    simp only [DAYU] at hk
    omega
termination_by (we - cur).toNat
decreasing_by simp only [DAYU]; omega

/-- Every daily occurrence lies in `[window_start, window_end)`. -/
theorem mem_emitDaily_bounds (we cur t : Int) (h : t ∈ emitDaily we cur) :
    cur ≤ t ∧ t < we := by
  obtain ⟨k, rfl, hlt⟩ := (mem_emitDaily we cur t).mp h
  have : (0 : Int) ≤ (k : Int) * DAYU := by
    simp only [DAYU]; positivity
  omega

theorem advanceWeeks_spec (ws first : Int) :
    (∃ k : Nat, advanceWeeks ws first = first + k * (7 * DAYU)) ∧
    (first < ws → ws ≤ advanceWeeks ws first) ∧
    (¬ first < ws → advanceWeeks ws first = first) ∧
    (∀ j : Nat, ws ≤ first + j * (7 * DAYU) → advanceWeeks ws first ≤ first + j * (7 * DAYU)) := by
  rw [advanceWeeks_unfold]
  split
  next h =>
    obtain ⟨⟨k, hk⟩, hge, heq, hmin⟩ := advanceWeeks_spec ws (first + 7 * DAYU)
    refine ⟨⟨k + 1, by rw [hk]; push_cast; ring⟩, fun _ => ?_, fun hc => absurd h hc, fun j hj => ?_⟩
    · by_cases hc : first + 7 * DAYU < ws
      · exact hge hc
      · rw [heq hc]; omega
    · have hj1 : 1 ≤ j := by
        by_contra hj0
        have : j = 0 := by omega
        subst this
        simp only [DAYU] at hj h
        omega
      obtain ⟨j', rfl⟩ : ∃ j' : Nat, j = j' + 1 := ⟨j - 1, by omega⟩
      have := hmin j' (by push_cast at hj ⊢; linarith [hj])
      calc advanceWeeks ws (first + 7 * DAYU) ≤ first + 7 * DAYU + j' * (7 * DAYU) := this
        _ = first + (j' + 1 : Nat) * (7 * DAYU) := by push_cast; ring
  next h =>
    refine ⟨⟨0, by simp⟩, fun hc => absurd hc h, fun _ => rfl, fun j hj => ?_⟩
    have : (0 : Int) ≤ (j : Int) * (7 * DAYU) := by
      simp only [DAYU]; positivity
    omega
termination_by (ws - first).toNat
decreasing_by simp only [DAYU]; omega

theorem emitWeekly_from_first (s ws we first0 F t : Int) (target : Nat)
    (halign0 : first0 % DAYU = s % DAYU)
    (hwd0 : (first0 / DAYU) % 7 = (target : Int))
    (hs_le : s ≤ first0) (hlt7 : first0 < s + 7 * DAYU)
    (hA : ∃ k0 : Nat, F = first0 + k0 * (7 * DAYU))
    (hB : ws ≤ F)
    (hD : ∀ j : Nat, ws ≤ first0 + j * (7 * DAYU) → F ≤ first0 + j * (7 * DAYU)) :
    t ∈ emitWeekly we F ↔
      (t % DAYU = s % DAYU ∧ weekdayOf t = (target : Int) ∧ s ≤ t ∧ ws ≤ t ∧ t < we) := by
  obtain ⟨k0, hk0⟩ := hA
  rw [mem_emitWeekly]
  constructor
  · rintro ⟨k, rfl, hlt⟩
    refine ⟨?_, ?_, ?_, ?_, hlt⟩
    · simp only [DAYU] at *; omega
    · simp only [weekdayOf, DAYU] at *; omega
    · simp only [DAYU] at *; omega
    · simp only [DAYU] at *; omega
  · rintro ⟨hal, hwd, hsle, hwsle, hlt⟩
    have hj : ∃ j : Nat, t = first0 + j * (7 * DAYU) := by
      refine ⟨((t - first0) / (7 * DAYU)).toNat, ?_⟩
      simp only [weekdayOf, DAYU] at *
      omega
    obtain ⟨j, hjeq⟩ := hj
    have hws_j : ws ≤ first0 + j * (7 * DAYU) := by rw [← hjeq]; exact hwsle
    have hFle := hD j hws_j
    have hjk : k0 ≤ j := by
      rw [hk0] at hFle
      simp only [DAYU] at hFle
      omega
    refine ⟨j - k0, ?_, hlt⟩
    rw [hk0, hjeq]
    push_cast [Nat.cast_sub hjk]
    ring

/-- Full characterization of the per-weekday expansion: it emits exactly the
timestamps with the anchor's time of day, falling on the target weekday, on or
after both the anchor and `window_start`, and before `window_end`. -/
theorem mem_weekday_occurrences (s ws we : Int) (target : Nat) (ht : target < 7) (t : Int) :
    t ∈ weekday_occurrences s ws we target ↔
      (t % DAYU = s % DAYU ∧ weekdayOf t = (target : Int) ∧ s ≤ t ∧ ws ≤ t ∧ t < we) := by
  have hwo : weekday_occurrences s ws we target =
      emitWeekly we
        (if s + ((((target : Int) - (s / DAYU) % 7) % 7) * DAYU) < ws then
          advanceWeeks ws
            (s + ((((target : Int) - (s / DAYU) % 7) % 7) * DAYU) +
              ((ws - (s + ((((target : Int) - (s / DAYU) % 7) % 7) * DAYU))) / DAYU / 7 * 7) * DAYU)
        else s + ((((target : Int) - (s / DAYU) % 7) % 7) * DAYU)) := rfl
  rw [hwo]
  set f0 := s + ((((target : Int) - (s / DAYU) % 7) % 7) * DAYU) with hf0
  set jmp := (ws - f0) / DAYU / 7 * 7 with hjmp
  have hf0a : f0 % DAYU = s % DAYU := by rw [hf0]; simp only [DAYU]; omega
  have hf0b : (f0 / DAYU) % 7 = (target : Int) := by rw [hf0]; simp only [DAYU]; omega
  have hs_le : s ≤ f0 := by rw [hf0]; simp only [DAYU]; omega
  have hlt7 : f0 < s + 7 * DAYU := by rw [hf0]; simp only [DAYU]; omega
  by_cases hif : f0 < ws
  · rw [if_pos hif]
    obtain ⟨⟨ka, hka⟩, hge, heq, hmin⟩ := advanceWeeks_spec ws (f0 + jmp * DAYU)
    have hjnn : 0 ≤ jmp := by rw [hjmp]; simp only [DAYU]; omega
    have hj7 : jmp % 7 = 0 := by rw [hjmp]; omega
    have hjle : f0 + jmp * DAYU ≤ ws := by rw [hjmp]; simp only [DAYU]; omega
    apply emitWeekly_from_first s ws we f0 _ t target hf0a hf0b hs_le hlt7
    · refine ⟨(jmp / 7).toNat + ka, ?_⟩
      rw [hka]
      simp only [DAYU] at *
      push_cast
      omega
    · by_cases hc : f0 + jmp * DAYU < ws
      · exact hge hc
      · rw [heq hc]
        omega
    · intro j hj
      have hjk : jmp ≤ 7 * (j : Int) := by
        simp only [DAYU] at *
        omega
      have harg : ws ≤ f0 + jmp * DAYU + (((7 * (j : Int) - jmp) / 7).toNat : Int) * (7 * DAYU) := by
        simp only [DAYU] at *
        push_cast
        omega
      have hres := hmin (((7 * (j : Int) - jmp) / 7).toNat) harg
      have hrw : f0 + jmp * DAYU + (((7 * (j : Int) - jmp) / 7).toNat : Int) * (7 * DAYU) =
          f0 + (j : Int) * (7 * DAYU) := by
        simp only [DAYU] at *
        push_cast
        omega
      rw [hrw] at hres
      exact hres
  · rw [if_neg hif]
    apply emitWeekly_from_first s ws we f0 f0 t target hf0a hf0b hs_le hlt7
    · exact ⟨0, by simp⟩
    · omega
    · intro j hj
      have : (0 : Int) ≤ (j : Int) * (7 * DAYU) := by
        simp only [DAYU]; positivity
      omega

/-- The pure fold the weekday loop computes when the anchor parsed. -/
def weekdayFoldPure (sv ws we : Int) (acc : List Int) (l : List String) : List Int :=
  l.foldl (fun acc wd =>
    if wd ∈ RFC5545_DAYS then acc ++ weekday_occurrences sv ws we (RFC5545_DAYS.indexOf wd)
    else acc) acc

theorem weekdayFold_ok (sv ws we : Int) :
    ∀ (l : List String) (acc : List Int),
      l.foldlM (weekdayFoldStep (some sv) ws we) acc =
        Except.ok (weekdayFoldPure sv ws we acc l)
  | [], acc => rfl
  | wd :: rest, acc => by
      by_cases h : wd ∈ RFC5545_DAYS
      · simp only [List.foldlM_cons, weekdayFoldStep, if_pos h,
          weekdayFold_ok sv ws we rest, weekdayFoldPure, List.foldl_cons]
        rfl
      · simp only [List.foldlM_cons, weekdayFoldStep, if_neg h,
          weekdayFold_ok sv ws we rest, weekdayFoldPure, List.foldl_cons]
        rfl

theorem mem_weekdayFoldPure (sv ws we : Int) :
    ∀ (l : List String) (acc : List Int) (x : Int),
      x ∈ weekdayFoldPure sv ws we acc l ↔
        x ∈ acc ∨ ∃ wd ∈ l, wd ∈ RFC5545_DAYS ∧
          x ∈ weekday_occurrences sv ws we (RFC5545_DAYS.indexOf wd)
  | [], acc, x => by simp [weekdayFoldPure]
  | wd :: rest, acc, x => by
      by_cases h : wd ∈ RFC5545_DAYS
      · simp only [weekdayFoldPure, List.foldl_cons, if_pos h] at *
        rw [show (List.foldl _ (acc ++ weekday_occurrences sv ws we (RFC5545_DAYS.indexOf wd)) rest : List Int) =
          weekdayFoldPure sv ws we (acc ++ weekday_occurrences sv ws we (RFC5545_DAYS.indexOf wd)) rest from rfl,
          mem_weekdayFoldPure sv ws we rest]
        simp only [List.mem_append, List.mem_cons]
        constructor
        · rintro (⟨hx | hx⟩ | ⟨w, hw, hmem⟩)
          · exact Or.inl hx
          · exact Or.inr ⟨wd, Or.inl rfl, h, hx⟩
          · exact Or.inr ⟨w, Or.inr hw, hmem⟩
        · rintro (hx | ⟨w, (rfl | hw), hmem⟩)
          · exact Or.inl (Or.inl hx)
          · exact Or.inl (Or.inr hmem.2)
          · exact Or.inr ⟨w, hw, hmem⟩
      · simp only [weekdayFoldPure, List.foldl_cons, if_neg h] at *
        rw [show (List.foldl _ acc rest : List Int) = weekdayFoldPure sv ws we acc rest from rfl,
          mem_weekdayFoldPure sv ws we rest]
        simp only [List.mem_cons]
        constructor
        · rintro (hx | ⟨w, hw, hmem⟩)
          · exact Or.inl hx
          · exact Or.inr ⟨w, Or.inr hw, hmem⟩
        · rintro (hx | ⟨w, (rfl | hw), hmem⟩)
          · exact Or.inl hx
          · exact absurd h (by simp [hmem.1])
          · exact Or.inr ⟨w, hw, hmem⟩

/-- C9 (amended).  Weekly recurrence expansion: for an item event with a
weekday list and a usable anchor `sv` (its parsed `start_date`, or
`window_start` when absent), the expansion succeeds and emits exactly the
zero-length occurrences `(t, t)` such that `t` keeps the anchor's time of day,
falls on one of the named weekdays, and satisfies `sv ≤ t`, `ws ≤ t`, `t < we`
— i.e. per named weekday, the first occurrence on or after the LATER of the
item's anchor and `window_start`, then one occurrence per week while before
`window_end`.  (The claim's "first occurrence on or after window_start" only
holds when the anchor does not fall inside the window; see the
counterexample.) -/
theorem C9_weekly_expansion_amended (ev : CFEvent) (ws we sv : Int)
    (hrep : ev.repeatDays ≠ [])
    (hanchor : (if truthyRaw ev.start_date then datetime_or_none ev.start_date
        else some ws) = some sv) :
    ∃ l, item_occurrences ev ws we = Except.ok l ∧
      (∀ p ∈ l, ∃ u : Int, p = ((some u : Option Int), (some u : Option Int))) ∧
      (∀ t : Int, (((some t : Option Int), (some t : Option Int)) ∈ l ↔
        ∃ wd ∈ ev.repeatDays, wd ∈ RFC5545_DAYS ∧
          t % DAYU = sv % DAYU ∧ weekdayOf t = (RFC5545_DAYS.indexOf wd : Int) ∧
          sv ≤ t ∧ ws ≤ t ∧ t < we)) := by
  have hempty : ev.repeatDays.isEmpty = false := by
    cases h : ev.repeatDays with
    | nil => exact absurd h hrep
    | cons a t => rfl
  refine ⟨(stableSort (fun a b => a ≤ b) (weekdayFoldPure sv ws we [] ev.repeatDays)).map
      (fun c => ((some c : Option Int), (some c : Option Int))), ?_, ?_, ?_⟩
  · unfold item_occurrences
    rw [hanchor, hempty]
    simp only [Bool.false_eq_true, if_false, weekdayFold_ok]
  · intro p hp
    obtain ⟨c, _, rfl⟩ := List.mem_map.mp hp
    exact ⟨c, rfl⟩
  · intro t
    rw [List.mem_map]
    constructor
    · rintro ⟨c, hc, heq⟩
      obtain ⟨rfl, -⟩ : c = t ∧ True := by
        simp only [Prod.mk.injEq, Option.some.injEq] at heq
        exact ⟨heq.1, trivial⟩
      rw [mem_stableSort, mem_weekdayFoldPure] at hc
      rcases hc with hc | ⟨wd, hwdl, hwdm, hocc⟩
      · exact absurd hc (List.not_mem_nil c)
      · have ht : RFC5545_DAYS.indexOf wd < 7 := by
          have := List.indexOf_lt_length.mpr hwdm
          simpa [RFC5545_DAYS] using this
        have := (mem_weekday_occurrences sv ws we (RFC5545_DAYS.indexOf wd) ht c).mp hocc
        exact ⟨wd, hwdl, hwdm, this⟩
    · rintro ⟨wd, hwdl, hwdm, hprops⟩
      refine ⟨t, ?_, rfl⟩
      rw [mem_stableSort, mem_weekdayFoldPure]
      have ht : RFC5545_DAYS.indexOf wd < 7 := by
        have := List.indexOf_lt_length.mpr hwdm
        simpa [RFC5545_DAYS] using this
      exact Or.inr ⟨wd, hwdl, hwdm,
        (mem_weekday_occurrences sv ws we (RFC5545_DAYS.indexOf wd) ht t).mpr hprops⟩

def c9xEvent : CFEvent :=
  { enabled := true, status := Option.none, start_date := RawDate.ymd 2025 1 10,
    end_date := RawDate.missing, unlimited := Option.none, repeatDays := ["mon"],
    apply_to_items := ["1"], apply_to_categories := [] }

/-- C9 (counterexample).  An item recurring weekly on Monday but anchored at
2025-01-10, expanded over the window 2025-01-01..2025-01-15: Jan 6 is a Monday
on/after `window_start` and before `window_end`, yet the expansion emits only
Jan 13 — the claimed "first occurrence on or after window_start falling on
that weekday" (Jan 6) is not emitted when the anchor lies inside the window. -/
theorem C9_counterexample :
    item_occurrences c9xEvent (mkDT 2025 1 1) (mkDT 2025 1 15) =
      Except.ok [((some (mkDT 2025 1 13) : Option Int), (some (mkDT 2025 1 13) : Option Int))] ∧
    weekdayOf (mkDT 2025 1 6) = (RFC5545_DAYS.indexOf "mon" : Int) ∧
    mkDT 2025 1 1 ≤ mkDT 2025 1 6 ∧ mkDT 2025 1 6 < mkDT 2025 1 15 ∧
    (((some (mkDT 2025 1 6) : Option Int), (some (mkDT 2025 1 6) : Option Int)) ∉
      [((some (mkDT 2025 1 13) : Option Int), (some (mkDT 2025 1 13) : Option Int))]) := by
  refine ⟨by decide, by decide, by decide, by decide, by decide⟩

def c9wEvent : CFEvent :=
  { enabled := true, status := Option.none, start_date := RawDate.missing,
    end_date := RawDate.missing, unlimited := Option.none, repeatDays := ["mon"],
    apply_to_items := ["1"], apply_to_categories := [] }

theorem C9_weekly_expansion_amended_witness :
    c9wEvent.repeatDays ≠ [] ∧
    (if truthyRaw c9wEvent.start_date then datetime_or_none c9wEvent.start_date
        else some (mkDT 2025 1 1)) = some (mkDT 2025 1 1) ∧
    (∃ l, item_occurrences c9wEvent (mkDT 2025 1 1) (mkDT 2025 1 15) = Except.ok l ∧
      ((some (mkDT 2025 1 6), some (mkDT 2025 1 6)) ∈ l ∧
       (some (mkDT 2025 1 13), some (mkDT 2025 1 13)) ∈ l)) := by
  refine ⟨by decide, by decide, ?_⟩
  obtain ⟨l, hl, hshape, hiff⟩ :=
    C9_weekly_expansion_amended c9wEvent (mkDT 2025 1 1) (mkDT 2025 1 15) (mkDT 2025 1 1)
      (by decide) (by decide)
  refine ⟨l, hl, (hiff _).mpr ?_, (hiff _).mpr ?_⟩
  · exact ⟨"mon", by decide, by decide, by decide, by decide, by decide, by decide, by decide⟩
  · exact ⟨"mon", by decide, by decide, by decide, by decide, by decide, by decide, by decide⟩

/- ===================== cf_middle_layer.py : slot aggregation ===================== -/

/-- A catalog item, with the fields the aggregation reads off the raw item
dict: `sku`, `category`, `stock`, `unlimited`, `visibility`, `status`, and the
raw `tags` list.  `item_id` is the stringified id the catalog index is keyed
by. -/
structure CFItem where
  item_id : String
  sku : String
  category : Option String
  stock : Option Int
  unlimited : Option Int
  visibility : Option String
  status : Option String
  tags : List Val
deriving DecidableEq, Repr

/-- The `flat_booking` row built in `extract_checkfront_data`: the fixed
fields, plus the pass-through of the remaining raw keys of the booking line
(each `_normalize_value`d). -/
structure FlatBooking where
  booking_id : String
  customer_id : Val
  line_id : String
  sku : String
  qty : Int
  start : Int
  endT : Int
  extra : List (String × Val)
deriving DecidableEq, Repr

/-- `SlotAggregate` (`cf_middle_layer.py`).  `endT` is `Option` because the
availability pass can store a `None` end (an available event whose `end_date`
is the open-ended `"0"`). -/
structure SlotAggregate where
  sku : String
  start_date : Int
  start : Int
  endT : Option Int
  total_places : Option Int
  unlimited : Bool
  item : CFItem
  booking_items : List FlatBooking
  customers : List (Val × Val)
deriving DecidableEq, Repr

/-- The in-run bucket map keyed by `(sku, date ordinal)`, in insertion order. -/
abbrev Buckets : Type := List ((String × Int) × SlotAggregate)

def lookupKey (B : Buckets) (k : String × Int) : Option SlotAggregate :=
  (B.find? (fun p => p.1 = k)).map (fun p => p.2)

def containsKey (B : Buckets) (k : String × Int) : Bool :=
  (lookupKey B k).isSome

/-- `_overlaps` (`cf_middle_layer.py`): closed-open interval overlap,
`not (a_end <= b_start or b_end <= a_start)`. -/
def overlaps (a_start a_end b_start b_end : Int) : Bool :=
  !(decide (a_end ≤ b_start) || decide (b_end ≤ a_start))

/-- `_overlaps` applied to an occurrence with possibly-`None` endpoints (the
no-repeat branch of `_item_occurrences` can produce those).  Python evaluates
`a_end <= b_start` first, short-circuits the `or`, and raises `TypeError` the
moment `None` is compared. -/
def overlapsOpt (s e : Option Int) (b_start b_end : Int) : Except String Bool :=
  match e with
  | Option.none => Except.error "TypeError: None comparison"
  | some ev =>
      if ev ≤ b_start then Except.ok false
      else
        match s with
        | Option.none => Except.error "TypeError: None comparison"
        | some sv => Except.ok (!decide (b_end ≤ sv))

/-- `any(_overlaps(s, e, ub_s, ub_e) for (ub_s, ub_e) in windows)` with
Python's short-circuit evaluation (an empty window list never evaluates the
comparison, hence never raises). -/
def anyOverlap (s e : Option Int) : List (Int × Int) → Except String Bool
  | [] => Except.ok false
  | (bs, be) :: rest => do
      let b ← overlapsOpt s e bs be
      if b then Except.ok true else anyOverlap s e rest

/-- Lookup in an unavailability index (`dict.get(key, [])`). -/
def getWindows (m : List (String × List (Int × Int))) (k : String) : List (Int × Int) :=
  match m.find? (fun p => p.1 = k) with
  | some p => p.2
  | Option.none => []

/-- `m.setdefault(key, []).append(w)`. -/
def appendWindow (m : List (String × List (Int × Int))) (k : String) (w : Int × Int) :
    List (String × List (Int × Int)) :=
  if m.any (fun p => p.1 = k) then m.map (fun p => if p.1 = k then (p.1, p.2 ++ [w]) else p)
  else m ++ [(k, [w])]

/-- The `unavail_by_category.get(itemcategory, [])` lookup: a `None` category
key never matches a (string-keyed) entry, so it yields the default `[]`. -/
def categoryWindows (m : List (String × List (Int × Int))) : Option String → List (Int × Int)
  | some c => getWindows m c
  | Option.none => []

/-- `u_end_s.replace(hour=23, minute=59, second=59, microsecond=9999)` — note
that the source sets 9999 microseconds (i.e. 23:59:59.009999), not 999999. -/
def unavailEndReplace (t : Int) : Int :=
  (t / DAYU) * DAYU + (23 * 3600 + 59 * 60 + 59) * 1000000 + 9999

/-- The per-event normalization of the unavailability-index construction
(`build_buckets` lines 185–203).  The end date is parsed and immediately
`.replace(...)`d — when it failed to parse (missing, `"0"`, junk) that raises
`AttributeError` on `None`.  A `None` start then skips the event.  The
"treat missing/zero end as open-ended, cap at window_end" branch that follows
in the source is unreachable: a failed end parse has already raised before
it, and a parsed datetime is always truthy and never `== 0`; the source's
second `replace` call is applied below and is idempotent.  `_window_end` is
therefore never read. -/
def normalize_unavail (u : CFEvent) (_window_end : Int) :
    Except String (Option (Int × Int)) :=
  let u_start := datetime_or_none u.start_date
  match datetime_or_none u.end_date with
  | Option.none => Except.error "AttributeError: NoneType object has no attribute replace"
  | some ue0 =>
      let ue := unavailEndReplace ue0
      match u_start with
      | Option.none => Except.ok Option.none
      | some us => Except.ok (some (us, unavailEndReplace ue))

/-- The unavailability-index construction loop of `build_buckets`: map each
enabled `"U"` event's window onto every item id and every category id it
applies to. -/
def build_unavail (unavailable_events : List CFEvent) (window_end : Int) :
    Except String
      (List (String × List (Int × Int)) × List (String × List (Int × Int))) :=
  unavailable_events.foldlM (fun maps u => do
    match ← normalize_unavail u window_end with
    | Option.none => pure maps
    | some w =>
        let m1 := (event_applies_to_ids u).foldl (fun m i => appendWindow m i w) maps.1
        let m2 := (event_applies_to_categories u).foldl (fun m c => appendWindow m c w) maps.2
        pure (m1, m2)) ([], [])

/-- The per-occurrence seeding loop shared verbatim by the availability pass
(lines 247–265) and the daily-fallback pass (lines 283–301) of
`build_buckets`: skip the occurrence when it overlaps any item-level window,
then when it overlaps any category-level window; otherwise create the
`(sku, date)` aggregate if absent (capacity and the event's unlimited flag
are taken at first creation and never overwritten). -/
def seed_occs (item : CFItem) (unlimited : Bool)
    (notavailableitem notavailablecategory : List (Int × Int)) :
    Buckets → List (Option Int × Option Int) → Except String Buckets
  | B, [] => Except.ok B
  | B, (s, e) :: rest => do
      let b1 ← anyOverlap s e notavailableitem
      if b1 then seed_occs item unlimited notavailableitem notavailablecategory B rest
      else do
        let b2 ← anyOverlap s e notavailablecategory
        if b2 then seed_occs item unlimited notavailableitem notavailablecategory B rest
        else
          match s with
          | Option.none => Except.error "AttributeError: NoneType object has no attribute date"
          | some sv =>
              let key := (item.sku, dateOf sv)
              let B' := if containsKey B key then B else
                B ++ [(key, { sku := item.sku, start_date := dateOf sv, start := sv, endT := e,
                              total_places := item.stock, unlimited := unlimited, item := item,
                              booking_items := [], customers := [] })]
              seed_occs item unlimited notavailableitem notavailablecategory B' rest

/-- The body of the availability pass's `for applies_to_item_id in
applies_to_item_ids` loop (`build_buckets` lines 234–265): skip ids missing
from the catalog, update the `itemcategory` loop variable, and seed the
surviving occurrences; the category-level exclusion list is looked up at the
item's own category (a `None` category finds nothing). -/
def applyStep (items_by_id : List (String × CFItem))
    (unavail_by_item unavail_by_category : List (String × List (Int × Int)))
    (occs : List (Option Int × Option Int)) (unlimited : Bool)
    (acc : Buckets × Option (Option String)) (iid : String) :
    Except String (Buckets × Option (Option String)) := do
  match (items_by_id.find? (fun p => p.1 = iid)).map (fun p => p.2) with
  | Option.none => pure acc
  | some item =>
      let itemcategory := item.category
      let nai := getWindows unavail_by_item iid
      let nac := categoryWindows unavail_by_category itemcategory
      let B' ← seed_occs item unlimited nai nac acc.1 occs
      pure (B', some itemcategory)

/-- The body of the daily-fallback `for applies_to_item_id in
available_items_by_id` loop (`build_buckets` lines 271–301).  `itemcat` is
the state of the `itemcategory` variable left behind by the availability
pass: reading it unassigned raises `NameError`, and when assigned the
category-level exclusion list is looked up at this STALE value, not at the
fallback item's own category. -/
def fallbackStep (items_by_id : List (String × CFItem))
    (unavail_by_item unavail_by_category : List (String × List (Int × Int)))
    (ws we : Int) (unlimited : Bool) (itemcat : Option (Option String))
    (B : Buckets) (p : String × CFItem) : Except String Buckets := do
  match (items_by_id.find? (fun q => q.1 = p.1)).map (fun q => q.2) with
  | Option.none => pure B
  | some item =>
      let occsD := (item_daily_occurrences ws we).map
        (fun c => ((some c.1 : Option Int), (some c.2 : Option Int)))
      let nai := getWindows unavail_by_item p.1
      match itemcat with
      | Option.none => Except.error "NameError: name itemcategory is not defined"
      | some cat =>
          let nac := categoryWindows unavail_by_category cat
          seed_occs item unlimited nai nac B occsD

/-- The eligibility filter of the daily fallback (`available_items_by_id`,
lines 267–269): not flagged unavailable, `unlimited == 0`, publicly visible. -/
def eligibleItem (it : CFItem) : Bool :=
  decide (it.status ≠ some "U") && decide (it.unlimited = some 0) &&
    decide (it.visibility = some "*")

/-- The end-date filter of the availability pass (lines 223–225): a non-`"0"`
end date is parsed and compared with `window_start` — raising `TypeError`
when the parse failed (`None < datetime`) — and the event is skipped when it
ended before the window. -/
def eventEndSkip (ev : CFEvent) (ws : Int) : Except String Bool :=
  if ev.end_date ≠ RawDate.zero then
    match datetime_or_none ev.end_date with
    | Option.none => Except.error "TypeError: None comparison with window_start"
    | some ue => Except.ok (decide (ue < ws))
  else Except.ok false

/-- One iteration of the `for available_event in available_events` loop of
`build_buckets` (lines 216–301), INCLUDING the daily-fallback block, which in
the source is nested inside this loop: it runs once per available event, and
not at all when there are no available events.  The loop state is the bucket
map plus the `itemcategory` variable (see `applyStep`/`fallbackStep`).
`unlimited = bool(available_event.get("unlimited") == 1)` is the event's
flag, used by both seeding passes of this iteration. -/
def eventStep (items_by_id : List (String × CFItem))
    (unavail_by_item unavail_by_category : List (String × List (Int × Int)))
    (ws we : Int) (st : Buckets × Option (Option String)) (ev : CFEvent) :
    Except String (Buckets × Option (Option String)) :=
  if ev.start_date = RawDate.zero then Except.ok st
  else
    eventEndSkip ev ws >>= fun skip =>
    if skip then Except.ok st
    else
      item_occurrences ev ws we >>= fun occs =>
      (event_applies_to_ids ev).foldlM
        (applyStep items_by_id unavail_by_item unavail_by_category occs
          (decide (ev.unlimited = some 1))) st >>= fun st1 =>
      (items_by_id.filter (fun p => eligibleItem p.2)).foldlM
        (fallbackStep items_by_id unavail_by_item unavail_by_category ws we
          (decide (ev.unlimited = some 1)) st1.2) st1.1 >>= fun B2 =>
      Except.ok (B2, st1.2)

/-- `build_buckets` (`cf_middle_layer.py`), returning the bucket map together
with the final state of the `itemcategory` loop variable.  The
`events_seen_item_ids` set built at lines 209–214 of the source is dead code
(never read afterwards) and is omitted. -/
def build_buckets_state (item_events : List CFEvent)
    (items_by_id : List (String × CFItem)) (ws we : Int) :
    Except String (Buckets × Option (Option String)) := do
  let available_events := item_events.filter
    (fun e => e.enabled && decide (e.status ≠ some "U"))
  let unavailable_events := item_events.filter
    (fun e => e.enabled && decide (e.status = some "U"))
  let maps ← build_unavail unavailable_events we
  available_events.foldlM (eventStep items_by_id maps.1 maps.2 ws we) ([], Option.none)

/-- `build_buckets`, projected on the bucket map it returns. -/
def build_buckets_run (item_events : List CFEvent)
    (items_by_id : List (String × CFItem)) (ws we : Int) : Except String Buckets :=
  (build_buckets_state item_events items_by_id ws we).map (fun r => r.1)

/- ===================== seeding lemmas ===================== -/

/-- Total form of the overlap-any check for a fully-dated occurrence. -/
def anyOverlapB (s e : Int) (l : List (Int × Int)) : Bool :=
  l.any (fun w => overlaps s e w.1 w.2)

theorem overlapsOpt_some (s e bs be : Int) :
    overlapsOpt (some s) (some e) bs be = Except.ok (overlaps s e bs be) := by
  unfold overlapsOpt overlaps
  by_cases h : e ≤ bs
  · simp [h]
  · simp [h]

theorem except_bind_ok {α β : Type} (a : α) (f : α → Except String β) :
    (Except.ok a >>= f) = f a := rfl

theorem except_bind_error {α β : Type} (msg : String) (f : α → Except String β) :
    ((Except.error msg : Except String α) >>= f) = Except.error msg := rfl

theorem anyOverlap_some (s e : Int) :
    ∀ l : List (Int × Int), anyOverlap (some s) (some e) l = Except.ok (anyOverlapB s e l)
  | [] => rfl
  | (bs, be) :: rest => by
      have hrest := anyOverlap_some s e rest
      show (overlapsOpt (some s) (some e) bs be >>= fun b =>
        if b = true then Except.ok true else anyOverlap (some s) (some e) rest) = _
      rw [overlapsOpt_some, except_bind_ok]
      cases h : overlaps s e bs be with
      | true => simp [anyOverlapB, h]
      | false => simp [anyOverlapB, h, hrest]

theorem containsKey_append_right (B : Buckets) (q : (String × Int) × SlotAggregate)
    (k : String × Int) (h : containsKey B k = true) :
    containsKey (B ++ [q]) k = true := by
  unfold containsKey lookupKey at *
  rw [List.find?_append]
  cases hf : B.find? (fun p => p.1 = k) with
  | none => rw [hf] at h; simp at h
  | some v => simp [hf]

theorem containsKey_append_self (B : Buckets) (v : SlotAggregate) (k : String × Int) :
    containsKey (B ++ [(k, v)]) k = true := by
  unfold containsKey lookupKey
  rw [List.find?_append]
  cases hf : B.find? (fun p => p.1 = k) with
  | none => simp [hf]
  | some w => simp [hf]

/-- The unfolding of one seeding step. -/
theorem seed_occs_cons (item : CFItem) (unl : Bool) (nai nac : List (Int × Int))
    (B : Buckets) (s e : Option Int) (rest : List (Option Int × Option Int)) :
    seed_occs item unl nai nac B ((s, e) :: rest) =
      (anyOverlap s e nai >>= fun b1 =>
        if b1 = true then seed_occs item unl nai nac B rest
        else anyOverlap s e nac >>= fun b2 =>
          if b2 = true then seed_occs item unl nai nac B rest
          else
            match s with
            | Option.none => Except.error "AttributeError: NoneType object has no attribute date"
            | some sv =>
                seed_occs item unl nai nac
                  (if containsKey B (item.sku, dateOf sv) = true then B else
                    B ++ [((item.sku, dateOf sv),
                      { sku := item.sku, start_date := dateOf sv, start := sv, endT := e,
                        total_places := item.stock, unlimited := unl, item := item,
                        booking_items := [], customers := [] })]) rest) := rfl

/-- The fully-dated form of one seeding step. -/
theorem seed_occs_cons_somes (item : CFItem) (unl : Bool) (nai nac : List (Int × Int))
    (B : Buckets) (t u : Int) (rest : List (Option Int × Option Int)) :
    seed_occs item unl nai nac B (((some t : Option Int), (some u : Option Int)) :: rest) =
      (if anyOverlapB t u nai = true then seed_occs item unl nai nac B rest
       else if anyOverlapB t u nac = true then seed_occs item unl nai nac B rest
       else seed_occs item unl nai nac
         (if containsKey B (item.sku, dateOf t) = true then B else
           B ++ [((item.sku, dateOf t),
             { sku := item.sku, start_date := dateOf t, start := t, endT := some u,
               total_places := item.stock, unlimited := unl, item := item,
               booking_items := [], customers := [] })]) rest) := by
  rw [seed_occs_cons, anyOverlap_some, except_bind_ok]
  by_cases h1 : anyOverlapB t u nai = true
  · rw [if_pos h1, if_pos h1]
  · rw [if_neg h1, if_neg h1, anyOverlap_some, except_bind_ok]

/-- Inversion of one seeding step: the tail runs from some intermediate bucket
map that contains every key of the initial one. -/
theorem seed_occs_cons_inv (item : CFItem) (unl : Bool) (nai nac : List (Int × Int))
    (B B' : Buckets) (s e : Option Int) (rest : List (Option Int × Option Int))
    (hrun : seed_occs item unl nai nac B ((s, e) :: rest) = Except.ok B') :
    ∃ Bmid, seed_occs item unl nai nac Bmid rest = Except.ok B' ∧
      (∀ k, containsKey B k = true → containsKey Bmid k = true) := by
  rw [seed_occs_cons] at hrun
  cases h1 : anyOverlap s e nai with
  | error msg => rw [h1, except_bind_error] at hrun; exact Except.noConfusion hrun
  | ok b1 =>
    rw [h1, except_bind_ok] at hrun
    cases b1 with
    | true =>
      rw [if_pos rfl] at hrun
      exact ⟨B, hrun, fun k hk => hk⟩
    | false =>
      rw [if_neg (by simp)] at hrun
      cases h2 : anyOverlap s e nac with
      | error msg => rw [h2, except_bind_error] at hrun; exact Except.noConfusion hrun
      | ok b2 =>
        rw [h2, except_bind_ok] at hrun
        cases b2 with
        | true =>
          rw [if_pos rfl] at hrun
          exact ⟨B, hrun, fun k hk => hk⟩
        | false =>
          rw [if_neg (by simp)] at hrun
          cases s with
          | none => exact Except.noConfusion hrun
          | some sv =>
            refine ⟨_, hrun, fun k hk => ?_⟩
            by_cases hck : containsKey B (item.sku, dateOf sv) = true
            · rw [if_pos hck]; exact hk
            · rw [if_neg hck]; exact containsKey_append_right B _ k hk

/-- Seeding never removes keys. -/
theorem seed_occs_mono (item : CFItem) (unl : Bool) (nai nac : List (Int × Int)) :
    ∀ (occs : List (Option Int × Option Int)) (B B' : Buckets) (k : String × Int),
      seed_occs item unl nai nac B occs = Except.ok B' →
      containsKey B k = true → containsKey B' k = true
  | [], B, B', k, hrun, hk => by
      have h0 : seed_occs item unl nai nac B [] = Except.ok B := rfl
      rw [h0] at hrun
      cases hrun
      exact hk
  | (s, e) :: rest, B, B', k, hrun, hk => by
      obtain ⟨Bmid, hrest, hpres⟩ := seed_occs_cons_inv item unl nai nac B B' s e rest hrun
      exact seed_occs_mono item unl nai nac rest Bmid B' k hrest (hpres k hk)

/-- A fully-dated occurrence that survives both exclusion checks ends up with
its `(sku, date)` key present in the seeded bucket map. -/
theorem seed_occs_mem (item : CFItem) (unl : Bool) (nai nac : List (Int × Int)) :
    ∀ (occs : List (Option Int × Option Int)) (B B' : Buckets) (t : Int),
      seed_occs item unl nai nac B occs = Except.ok B' →
      ((some t : Option Int), (some t : Option Int)) ∈ occs →
      anyOverlapB t t nai = false → anyOverlapB t t nac = false →
      containsKey B' (item.sku, dateOf t) = true
  | [], _, _, t, _, hmem, _, _ => absurd hmem (List.not_mem_nil _)
  | (s, e) :: rest, B, B', t, hrun, hmem, hx1, hx2 => by
      rcases List.mem_cons.mp hmem with heq | hmem'
      · have hs : s = some t := (Prod.ext_iff.mp heq.symm).1
        have he : e = some t := (Prod.ext_iff.mp heq.symm).2
        subst hs; subst he
        rw [seed_occs_cons_somes] at hrun
        rw [if_neg (by simp [hx1]), if_neg (by simp [hx2])] at hrun
        have hmid : containsKey
            (if containsKey B (item.sku, dateOf t) = true then B else
              B ++ [((item.sku, dateOf t),
                { sku := item.sku, start_date := dateOf t, start := t, endT := some t,
                  total_places := item.stock, unlimited := unl, item := item,
                  booking_items := [], customers := [] })]) (item.sku, dateOf t) = true := by
          by_cases hck : containsKey B (item.sku, dateOf t) = true
          · rw [if_pos hck]; exact hck
          · rw [if_neg hck]; exact containsKey_append_self B _ _
        exact seed_occs_mono item unl nai nac rest _ B' _ hrun hmid
      · obtain ⟨Bmid, hrest, hpres⟩ := seed_occs_cons_inv item unl nai nac B B' s e rest hrun
        exact seed_occs_mem item unl nai nac rest Bmid B' t hrest hmem' hx1 hx2

/-- The membership form of `_item_daily_occurrences`. -/
theorem mem_item_daily_occurrences (ws we t u : Int) :
    (t, u) ∈ item_daily_occurrences ws we ↔ t ∈ emitDaily we ws ∧ u = t := by
  unfold item_daily_occurrences
  rw [mem_stableSort, List.mem_map]
  constructor
  · rintro ⟨c, hc, heq⟩
    have h1 : c = t := (Prod.ext_iff.mp heq).1
    have h2 : c = u := (Prod.ext_iff.mp heq).2
    refine ⟨?_, ?_⟩
    · rw [← h1]; exact hc
    · rw [← h2]; exact h1
  · rintro ⟨hc, heq⟩
    refine ⟨t, hc, ?_⟩
    rw [heq]

/-- `fallbackStep` with the `itemcategory` variable never assigned: either the
id is missing from the catalog (no read, no error) or reading the variable
raises `NameError`. -/
theorem fallbackStep_none_eq (ibid : List (String × CFItem))
    (ubi ubc : List (String × List (Int × Int))) (ws we : Int) (unl : Bool)
    (B : Buckets) (p : String × CFItem) :
    fallbackStep ibid ubi ubc ws we unl Option.none B p =
      (match (ibid.find? (fun q => q.1 = p.1)).map (fun q => q.2) with
       | Option.none => Except.ok B
       | some _ => Except.error "NameError: name itemcategory is not defined") := rfl

/-- `fallbackStep` with the `itemcategory` variable assigned (to the stale
category `c`). -/
theorem fallbackStep_some_eq (ibid : List (String × CFItem))
    (ubi ubc : List (String × List (Int × Int))) (ws we : Int) (unl : Bool)
    (c : Option String) (B : Buckets) (p : String × CFItem) :
    fallbackStep ibid ubi ubc ws we unl (some c) B p =
      (match (ibid.find? (fun q => q.1 = p.1)).map (fun q => q.2) with
       | Option.none => Except.ok B
       | some item =>
          seed_occs item unl (getWindows ubi p.1) (categoryWindows ubc c)
            B ((item_daily_occurrences ws we).map
                (fun d => ((some d.1 : Option Int), (some d.2 : Option Int))))) := rfl

/-- One fallback step never removes keys. -/
theorem fallbackStep_mono (ibid : List (String × CFItem))
    (ubi ubc : List (String × List (Int × Int))) (ws we : Int) (unl : Bool)
    (itemcat : Option (Option String)) (B B' : Buckets) (p : String × CFItem)
    (k : String × Int)
    (hrun : fallbackStep ibid ubi ubc ws we unl itemcat B p = Except.ok B')
    (hk : containsKey B k = true) : containsKey B' k = true := by
  cases itemcat with
  | none =>
    rw [fallbackStep_none_eq] at hrun
    cases hfind : (ibid.find? (fun q => q.1 = p.1)).map (fun q => q.2) with
    | none =>
      rw [hfind] at hrun
      have hBB : B = B' := Except.ok.inj hrun
      rw [← hBB]; exact hk
    | some item =>
      rw [hfind] at hrun
      exact Except.noConfusion hrun
  | some c =>
    rw [fallbackStep_some_eq] at hrun
    cases hfind : (ibid.find? (fun q => q.1 = p.1)).map (fun q => q.2) with
    | none =>
      rw [hfind] at hrun
      have hBB : B = B' := Except.ok.inj hrun
      rw [← hBB]; exact hk
    | some item =>
      rw [hfind] at hrun
      have hrun' : seed_occs item unl (getWindows ubi p.1) (categoryWindows ubc c)
          B ((item_daily_occurrences ws we).map
            (fun d => ((some d.1 : Option Int), (some d.2 : Option Int)))) =
          Except.ok B' := hrun
      exact seed_occs_mono item unl (getWindows ubi p.1) (categoryWindows ubc c)
        ((item_daily_occurrences ws we).map
          (fun d => ((some d.1 : Option Int), (some d.2 : Option Int)))) B B' k hrun' hk

/-- The fallback step for an entry whose id resolves to an item seeds a slot
for every daily occurrence that survives the item-level check and the
stale-category check. -/
theorem fallbackStep_mem (ibid : List (String × CFItem))
    (ubi ubc : List (String × List (Int × Int))) (ws we : Int) (unl : Bool)
    (c : Option String) (B B' : Buckets) (iid : String) (pitem item : CFItem)
    (hrun : fallbackStep ibid ubi ubc ws we unl (some c) B (iid, pitem) = Except.ok B')
    (hfind : (ibid.find? (fun q => q.1 = iid)).map (fun q => q.2) = some item)
    (t : Int) (ht : t ∈ emitDaily we ws)
    (hx1 : anyOverlapB t t (getWindows ubi iid) = false)
    (hx2 : anyOverlapB t t (categoryWindows ubc c) = false) :
    containsKey B' (item.sku, dateOf t) = true := by
  rw [fallbackStep_some_eq] at hrun
  have hfind' : (ibid.find? (fun q => q.1 = ((iid, pitem) : String × CFItem).1)).map
      (fun q => q.2) = some item := hfind
  rw [hfind'] at hrun
  have hrun' : seed_occs item unl (getWindows ubi iid) (categoryWindows ubc c)
      B ((item_daily_occurrences ws we).map
        (fun d => ((some d.1 : Option Int), (some d.2 : Option Int)))) =
      Except.ok B' := hrun
  apply seed_occs_mem item unl (getWindows ubi iid) (categoryWindows ubc c)
    ((item_daily_occurrences ws we).map
      (fun d => ((some d.1 : Option Int), (some d.2 : Option Int)))) B B' t hrun' _ hx1 hx2
  rw [List.mem_map]
  exact ⟨(t, t), (mem_item_daily_occurrences ws we t t).mpr ⟨ht, rfl⟩, rfl⟩

/-- The fallback fold never removes keys. -/
theorem fallback_fold_mono (ibid : List (String × CFItem))
    (ubi ubc : List (String × List (Int × Int))) (ws we : Int) (unl : Bool)
    (itemcat : Option (Option String)) :
    ∀ (l : List (String × CFItem)) (B B2 : Buckets) (k : String × Int),
      l.foldlM (fallbackStep ibid ubi ubc ws we unl itemcat) B = Except.ok B2 →
      containsKey B k = true → containsKey B2 k = true
  | [], B, B2, k, hrun, hk => by
      have hBB : B = B2 := Except.ok.inj hrun
      rw [← hBB]; exact hk
  | p :: rest, B, B2, k, hrun, hk => by
      rw [List.foldlM_cons] at hrun
      cases hstep : fallbackStep ibid ubi ubc ws we unl itemcat B p with
      | error msg => rw [hstep, except_bind_error] at hrun; exact Except.noConfusion hrun
      | ok Bmid =>
        rw [hstep, except_bind_ok] at hrun
        exact fallback_fold_mono ibid ubi ubc ws we unl itemcat rest Bmid B2 k hrun
          (fallbackStep_mono ibid ubi ubc ws we unl itemcat B Bmid p k hstep hk)

/-- Keys seeded by the fallback pass for every processed eligible entry. -/
theorem fallback_fold_mem (ibid : List (String × CFItem))
    (ubi ubc : List (String × List (Int × Int))) (ws we : Int) (unl : Bool)
    (c : Option String) :
    ∀ (l : List (String × CFItem)) (B B2 : Buckets),
      l.foldlM (fallbackStep ibid ubi ubc ws we unl (some c)) B = Except.ok B2 →
      ∀ (iid : String) (pitem item : CFItem),
        (iid, pitem) ∈ l →
        (ibid.find? (fun q => q.1 = iid)).map (fun q => q.2) = some item →
        ∀ t, t ∈ emitDaily we ws →
          anyOverlapB t t (getWindows ubi iid) = false →
          anyOverlapB t t (categoryWindows ubc c) = false →
          containsKey B2 (item.sku, dateOf t) = true
  | [], _, _, _, iid, pitem, item, hmem, _, _, _, _, _ => absurd hmem (List.not_mem_nil _)
  | p :: rest, B, B2, hrun, iid, pitem, item, hmem, hfind, t, ht, hx1, hx2 => by
      rw [List.foldlM_cons] at hrun
      cases hstep : fallbackStep ibid ubi ubc ws we unl (some c) B p with
      | error msg => rw [hstep, except_bind_error] at hrun; exact Except.noConfusion hrun
      | ok Bmid =>
        rw [hstep, except_bind_ok] at hrun
        rcases List.mem_cons.mp hmem with heq | hmem'
        · rw [← heq] at hstep
          have hmid := fallbackStep_mem ibid ubi ubc ws we unl c B Bmid iid pitem item
            hstep hfind t ht hx1 hx2
          exact fallback_fold_mono ibid ubi ubc ws we unl (some c) rest Bmid B2 _ hrun hmid
        · exact fallback_fold_mem ibid ubi ubc ws we unl c rest Bmid B2 hrun
            iid pitem item hmem' hfind t ht hx1 hx2

/-- Inversion of a fully-processed event iteration: the returned bucket map is
the output of its fallback fold, run with the returned `itemcategory` state. -/
theorem eventStep_inv (ibid : List (String × CFItem))
    (ubi ubc : List (String × List (Int × Int))) (ws we : Int)
    (st : Buckets × Option (Option String)) (ev : CFEvent)
    (B : Buckets) (cat : Option (Option String))
    (hz : ¬ ev.start_date = RawDate.zero)
    (hskip : eventEndSkip ev ws = Except.ok false)
    (hrun : eventStep ibid ubi ubc ws we st ev = Except.ok (B, cat)) :
    ∃ st1 : Buckets × Option (Option String),
      (ibid.filter (fun p => eligibleItem p.2)).foldlM
        (fallbackStep ibid ubi ubc ws we (decide (ev.unlimited = some 1)) st1.2) st1.1 =
        Except.ok B ∧ cat = st1.2 := by
  unfold eventStep at hrun
  rw [if_neg hz, hskip, except_bind_ok, if_neg (by simp)] at hrun
  cases hocc : item_occurrences ev ws we with
  | error msg => rw [hocc, except_bind_error] at hrun; exact Except.noConfusion hrun
  | ok occs =>
    rw [hocc, except_bind_ok] at hrun
    cases happ : (event_applies_to_ids ev).foldlM
        (applyStep ibid ubi ubc occs (decide (ev.unlimited = some 1))) st with
    | error msg => rw [happ, except_bind_error] at hrun; exact Except.noConfusion hrun
    | ok st1 =>
      rw [happ, except_bind_ok] at hrun
      cases hfb : (ibid.filter (fun p => eligibleItem p.2)).foldlM
          (fallbackStep ibid ubi ubc ws we (decide (ev.unlimited = some 1)) st1.2) st1.1 with
      | error msg => rw [hfb, except_bind_error] at hrun; exact Except.noConfusion hrun
      | ok B2 =>
        rw [hfb, except_bind_ok] at hrun
        have hpair := Except.ok.inj hrun
        have h1 : B2 = B := congrArg Prod.fst hpair
        have h2 : st1.2 = cat := congrArg Prod.snd hpair
        refine ⟨st1, ?_, h2.symm⟩
        rw [hfb, h1]

/-- C3 (amended).  Daily fallback: the fallback block is nested inside the
per-available-event loop, so it seeds only when at least one enabled
available event is processed to the end of a loop iteration (here: the last
available event passes the start-`"0"` and ended-before-window filters).
Given such a run that returns bucket map `B` with the `itemcategory` loop
variable finally holding `c`, every catalog item that is eligible (not
flagged unavailable, `unlimited == 0`, publicly visible) receives an
aggregate for every day of the query window that survives the item-level
unavailability check and the STALE-category check (against `c`, not the
item's own category).  With no available events the fallback never runs (see
the counterexample). -/
theorem C3_daily_fallback_amended (item_events : List CFEvent)
    (ibid : List (String × CFItem)) (ws we : Int)
    (B : Buckets) (c : Option String)
    (ubi ubc : List (String × List (Int × Int)))
    (es : List CFEvent) (elast : CFEvent)
    (hmaps : build_unavail (item_events.filter
        (fun e => e.enabled && decide (e.status = some "U"))) we = Except.ok (ubi, ubc))
    (hsplit : item_events.filter (fun e => e.enabled && decide (e.status ≠ some "U")) =
      es ++ [elast])
    (hz : ¬ elast.start_date = RawDate.zero)
    (hskip : eventEndSkip elast ws = Except.ok false)
    (hrun : build_buckets_state item_events ibid ws we = Except.ok (B, some c))
    (iid : String) (pitem item : CFItem)
    (hentry : (iid, pitem) ∈ ibid) (helig : eligibleItem pitem = true)
    (hfind : (ibid.find? (fun q => q.1 = iid)).map (fun q => q.2) = some item)
    (t : Int) (ht : t ∈ emitDaily we ws)
    (hx1 : anyOverlapB t t (getWindows ubi iid) = false)
    (hx2 : anyOverlapB t t (categoryWindows ubc c) = false) :
    containsKey B (item.sku, dateOf t) = true := by
  simp only [build_buckets_state] at hrun
  rw [hmaps, except_bind_ok, hsplit, List.foldlM_append] at hrun
  cases hpre : es.foldlM (eventStep ibid ubi ubc ws we) ([], Option.none) with
  | error msg => rw [hpre, except_bind_error] at hrun; exact Except.noConfusion hrun
  | ok mid =>
    rw [hpre, except_bind_ok, List.foldlM_cons] at hrun
    cases hstep : eventStep ibid ubi ubc ws we mid elast with
    | error msg => rw [hstep, except_bind_error] at hrun; exact Except.noConfusion hrun
    | ok fin =>
      rw [hstep, except_bind_ok] at hrun
      have hfin : fin = (B, some c) := Except.ok.inj hrun
      rw [hfin] at hstep
      obtain ⟨st1, hfb, hcat⟩ :=
        eventStep_inv ibid ubi ubc ws we mid elast B (some c) hz hskip hstep
      rw [← hcat] at hfb
      have hm : (iid, pitem) ∈ ibid.filter (fun p => eligibleItem p.2) :=
        List.mem_filter.mpr ⟨hentry, helig⟩
      exact fallback_fold_mem ibid ubi ubc ws we (decide (elast.unlimited = some 1)) c
        (ibid.filter (fun p => eligibleItem p.2)) st1.1 B hfb iid pitem item hm hfind
        t ht hx1 hx2

def bbOf : Except String (Buckets × Option (Option String)) → Buckets
  | Except.ok r => r.1
  | Except.error _ => []

def c3wI : CFItem :=
  { item_id := "1", sku := "A", category := some "c", stock := some 5,
    unlimited := some 0, visibility := some "*", status := Option.none, tags := [] }

def c3wA : CFEvent :=
  { enabled := true, status := Option.none, start_date := RawDate.ymd 2025 1 1,
    end_date := RawDate.ymd 2025 1 10, unlimited := Option.none, repeatDays := [],
    apply_to_items := ["1"], apply_to_categories := [] }

theorem C3_daily_fallback_amended_witness :
    build_buckets_state [c3wA] [("1", c3wI)] (mkDT 2025 1 1) (mkDT 2025 1 3) =
      Except.ok (bbOf (build_buckets_state [c3wA] [("1", c3wI)]
        (mkDT 2025 1 1) (mkDT 2025 1 3)), some (some "c")) ∧
    eligibleItem c3wI = true ∧
    mkDT 2025 1 2 ∈ emitDaily (mkDT 2025 1 3) (mkDT 2025 1 1) ∧
    containsKey (bbOf (build_buckets_state [c3wA] [("1", c3wI)]
      (mkDT 2025 1 1) (mkDT 2025 1 3))) ("A", dateOf (mkDT 2025 1 2)) = true := by
  refine ⟨by decide, by decide, by decide, ?_⟩
  exact C3_daily_fallback_amended [c3wA] [("1", c3wI)] (mkDT 2025 1 1) (mkDT 2025 1 3)
    (bbOf (build_buckets_state [c3wA] [("1", c3wI)] (mkDT 2025 1 1) (mkDT 2025 1 3)))
    (some "c") [] [] [] c3wA (by decide) (by decide) (by decide) (by decide) (by decide)
    "1" c3wI c3wI (by decide) (by decide) (by decide) (mkDT 2025 1 2)
    (by decide) (by decide) (by decide)

/-- C3 (counterexample).  With an empty list of enabled available events the
fallback block never executes (it is nested inside the per-event loop), so an
eligible, publicly visible, non-unlimited item with no unavailability at all
receives NO baseline daily aggregates: the run returns an empty bucket map —
contradicting "seeds one aggregate per calendar day ... even when the list of
enabled available events is empty". -/
theorem C3_counterexample :
    eligibleItem c3wI = true ∧
    mkDT 2025 1 1 ∈ emitDaily (mkDT 2025 1 3) (mkDT 2025 1 1) ∧
    build_buckets_state [] [("1", c3wI)] (mkDT 2025 1 1) (mkDT 2025 1 3) =
      Except.ok ([], Option.none) ∧
    containsKey [] ("A", dateOf (mkDT 2025 1 1)) = false := by
  refine ⟨by decide, by decide, by decide, by decide⟩

/-- If every occurrence in the list is fully dated and excluded by one of the
two overlap checks, the seeding loop leaves the bucket map unchanged. -/
theorem seed_occs_all_excluded (item : CFItem) (unl : Bool)
    (nai nac : List (Int × Int)) :
    ∀ (occs : List (Option Int × Option Int)) (B : Buckets),
      (∀ p ∈ occs, ∃ t u : Int,
        p = ((some t : Option Int), (some u : Option Int)) ∧
        (anyOverlapB t u nai || anyOverlapB t u nac) = true) →
      seed_occs item unl nai nac B occs = Except.ok B
  | [], B, _ => rfl
  | (s, e) :: rest, B, h => by
      obtain ⟨t, u, heq, hexcl⟩ := h (s, e) (List.mem_cons_self _ _)
      have hs : s = some t := (Prod.ext_iff.mp heq).1
      have he : e = some u := (Prod.ext_iff.mp heq).2
      subst hs; subst he
      rw [seed_occs_cons_somes]
      have hrest : ∀ p ∈ rest, ∃ t u : Int,
          p = ((some t : Option Int), (some u : Option Int)) ∧
          (anyOverlapB t u nai || anyOverlapB t u nac) = true :=
        fun p hp => h p (List.mem_cons_of_mem _ hp)
      by_cases h1 : anyOverlapB t u nai = true
      · rw [if_pos h1]
        exact seed_occs_all_excluded item unl nai nac rest B hrest
      · have h2 : anyOverlapB t u nac = true := by
          rcases Bool.or_eq_true_iff.mp hexcl with hx | hx
          · exact absurd hx h1
          · exact hx
        rw [if_neg h1, if_pos h2]
        exact seed_occs_all_excluded item unl nai nac rest B hrest

/-- C6 (amended).  Overlap exclusion at the seeding loop: (1) an occurrence
that overlaps (closed-open test `_overlaps`) any window of the item-level
list OR any window of the category-level list it is checked against fails
the combined exclusion test — either check alone suffices; (2) a batch of
occurrences each failing the test seeds nothing.  The availability pass
checks the lists of the item's own id and the item's OWN category; the daily
fallback pass checks the item's own id but the category of the STALE
`itemcategory` variable (the last item of the availability pass), not the
fallback item's own category — see the counterexample. -/
theorem C6_overlap_exclusion_amended :
    (∀ (s e us ue : Int) (nai nac : List (Int × Int)),
      ((us, ue) ∈ nai ∨ (us, ue) ∈ nac) → overlaps s e us ue = true →
      (anyOverlapB s e nai || anyOverlapB s e nac) = true) ∧
    (∀ (item : CFItem) (unl : Bool) (nai nac : List (Int × Int)) (B : Buckets)
        (occs : List (Option Int × Option Int)),
      (∀ p ∈ occs, ∃ t u : Int,
        p = ((some t : Option Int), (some u : Option Int)) ∧
        (anyOverlapB t u nai || anyOverlapB t u nac) = true) →
      seed_occs item unl nai nac B occs = Except.ok B) := by
  constructor
  · rintro s e us ue nai nac (hm | hm) hov
    · have : anyOverlapB s e nai = true :=
        List.any_eq_true.mpr ⟨(us, ue), hm, hov⟩
      simp [this]
    · have : anyOverlapB s e nac = true :=
        List.any_eq_true.mpr ⟨(us, ue), hm, hov⟩
      simp [this]
  · exact fun item unl nai nac B occs h => seed_occs_all_excluded item unl nai nac occs B h

def c6uend : Int := mkDT 2025 1 3 + 86399009999

theorem C6_overlap_exclusion_amended_witness :
    overlaps (mkDT 2025 1 2) (mkDT 2025 1 2) (mkDT 2025 1 1) c6uend = true ∧
    (anyOverlapB (mkDT 2025 1 2) (mkDT 2025 1 2) [(mkDT 2025 1 1, c6uend)] ||
      anyOverlapB (mkDT 2025 1 2) (mkDT 2025 1 2) ([] : List (Int × Int))) = true ∧
    seed_occs c3wI false [(mkDT 2025 1 1, c6uend)] []
      [] [((some (mkDT 2025 1 2) : Option Int), (some (mkDT 2025 1 2) : Option Int))] =
      Except.ok [] := by
  refine ⟨by decide, ?_, ?_⟩
  · exact C6_overlap_exclusion_amended.1 (mkDT 2025 1 2) (mkDT 2025 1 2)
      (mkDT 2025 1 1) c6uend [(mkDT 2025 1 1, c6uend)] [] (Or.inl (by decide)) (by decide)
  · refine C6_overlap_exclusion_amended.2 c3wI false [(mkDT 2025 1 1, c6uend)] [] [] _ ?_
    intro p hp
    rcases List.mem_cons.mp hp with heq | habs
    · exact ⟨mkDT 2025 1 2, mkDT 2025 1 2, heq, by decide⟩
    · exact absurd habs (List.not_mem_nil p)

def c6I1 : CFItem :=
  { item_id := "1", sku := "A", category := some "c1", stock := some 5,
    unlimited := some 0, visibility := some "*", status := Option.none, tags := [] }

def c6I2 : CFItem :=
  { item_id := "2", sku := "B", category := some "c2", stock := some 3,
    unlimited := some 1, visibility := some "*", status := Option.none, tags := [] }

def c6U : CFEvent :=
  { enabled := true, status := some "U", start_date := RawDate.ymd 2025 1 1,
    end_date := RawDate.ymd 2025 1 3, unlimited := Option.none, repeatDays := [],
    apply_to_items := [], apply_to_categories := ["c1"] }

def c6A : CFEvent :=
  { enabled := true, status := Option.none, start_date := RawDate.ymd 2025 1 1,
    end_date := RawDate.ymd 2025 1 10, unlimited := Option.none, repeatDays := [],
    apply_to_items := ["2"], apply_to_categories := [] }

/-- C6 (counterexample).  Item 1 (sku `"A"`) has category `"c1"`, and the
enabled unavailability event `c6U` covers `"c1"` over Jan 1–3; the Jan 2
daily occurrence overlaps that window under the code's own overlap test.
Yet, because the availability pass last processed item 2 (category `"c2"`),
the daily-fallback pass checks the stale `itemcategory = "c2"` instead of
item 1's own `"c1"`, and the Jan 2 aggregate for sku `"A"` IS seeded — the
occurrence is not excluded although it overlaps a window in its item's
category's unavailability list. -/
theorem C6_counterexample :
    build_unavail [c6U] (mkDT 2025 1 4) =
      Except.ok ([], [("c1", [(mkDT 2025 1 1, c6uend)])]) ∧
    c6I1.category = some "c1" ∧
    overlaps (mkDT 2025 1 2) (mkDT 2025 1 2) (mkDT 2025 1 1) c6uend = true ∧
    build_buckets_state [c6U, c6A] [("1", c6I1), ("2", c6I2)]
        (mkDT 2025 1 1) (mkDT 2025 1 4) =
      Except.ok (bbOf (build_buckets_state [c6U, c6A] [("1", c6I1), ("2", c6I2)]
        (mkDT 2025 1 1) (mkDT 2025 1 4)), some (some "c2")) ∧
    containsKey (bbOf (build_buckets_state [c6U, c6A] [("1", c6I1), ("2", c6I2)]
      (mkDT 2025 1 1) (mkDT 2025 1 4))) ("A", dateOf (mkDT 2025 1 2)) = true := by
  refine ⟨by decide, by decide, by decide, by decide, by decide⟩

def c7uZero : CFEvent :=
  { enabled := true, status := some "U", start_date := RawDate.ymd 2025 1 2,
    end_date := RawDate.zero, unlimited := Option.none, repeatDays := [],
    apply_to_items := ["1"], apply_to_categories := [] }

def c7uOk : CFEvent :=
  { enabled := true, status := some "U", start_date := RawDate.ymd 2025 1 2,
    end_date := RawDate.ymd 2025 1 3, unlimited := Option.none, repeatDays := [],
    apply_to_items := ["1"], apply_to_categories := [] }

/-- C7 (code bug).  Unavailability-window normalization: (1) for an enabled
unavailable event with a parseable end date, the end recorded in the index is
23:59:59.**009999** of the end date (the source writes `microsecond=9999`),
not the claimed last instant 23:59:59.999999; (2) an event whose end date is
missing or the string `"0"` is NOT treated as open-ended and capped at
`window_end` — `_datetime_or_none` returns `None` and the unconditional
`u_end_s.replace(...)` raises `AttributeError`, aborting the whole run (the
capping branch sits after the `replace` and is unreachable). -/
theorem C7_unavail_normalization_bug :
    normalize_unavail c7uZero (mkDT 2025 1 15) =
      Except.error "AttributeError: NoneType object has no attribute replace" ∧
    build_unavail [c7uZero] (mkDT 2025 1 15) =
      Except.error "AttributeError: NoneType object has no attribute replace" ∧
    build_unavail [c7uOk] (mkDT 2025 1 15) =
      Except.ok ([("1", [(mkDT 2025 1 2, mkDT 2025 1 3 + 86399009999)])], []) ∧
    (mkDT 2025 1 3 + 86399009999) % DAYU = 86399009999 ∧
    (86399009999 : Int) ≠ 86399999999 := by
  refine ⟨by decide, by decide, by decide, by decide, by decide⟩

/- ===================== cf_middle_layer.py : the booking pass ===================== -/

/-- Python `isinstance(v, dict)` on a `Val`. -/
def isDictVal : Val → Bool
  | .dnil => true
  | .dcons _ _ _ => true
  | _ => false

/-- The entries of a dict-shaped `Val` as an association list. -/
def valPairs : Val → List (String × Val)
  | .dcons k v rest => (k, v) :: valPairs rest
  | _ => []

/-- `.get(k)` on an association list (no default: `None` when absent). -/
def assocGetV (l : List (String × Val)) (k : String) : Val :=
  match l.find? (fun p => p.1 = k) with
  | some p => p.2
  | Option.none => Val.none

/-- `.get(k)` on a `Val`-keyed dict (`slot.customers[cid]`,
`group_totals[grp]` — Python dict keys may be any hashable value). -/
def assocGetVal (l : List (Val × Val)) (k : Val) : Val :=
  match l.find? (fun p => p.1 = k) with
  | some p => p.2
  | Option.none => Val.none

/-- `d[k] = v` on a `Val`-keyed dict: replace in place or append. -/
def assocSetVal (l : List (Val × Val)) (k v : Val) : List (Val × Val) :=
  if l.any (fun p => p.1 = k) then l.map (fun p => if p.1 = k then (k, v) else p)
  else l ++ [(k, v)]

/-- Python `str(v)` for the scalar values the source stringifies
(booking/customer ids). -/
def pyStrOf : Val → String
  | .str s => s
  | .int n => toString n
  | .bool b => if b then "True" else "False"
  | .none => "None"
  | _ => ""

/-- The digits of a decimal literal. -/
def digitsToNat : List Char → Option Nat
  | [] => Option.none
  | cs =>
      if cs.all (fun c => c.isDigit) then
        some (cs.foldl (fun acc c => acc * 10 + (c.toNat - 48)) 0)
      else Option.none

/-- Python `int(str)`: optional sign, decimal digits, surrounding whitespace
allowed; anything else raises `ValueError`. -/
def parseIntStr (s : String) : Option Int :=
  match (pyStrip s).toList with
  | '-' :: ds => (digitsToNat ds).map (fun n => -(n : Int))
  | '+' :: ds => (digitsToNat ds).map (fun n => (n : Int))
  | ds => (digitsToNat ds).map (fun n => (n : Int))

/-- Python `int(v)` on the scalar values the source converts: ints pass
through, booleans are 0/1, numeric strings parse, `None` and junk raise. -/
def pyToInt : Val → Except String Int
  | .int n => Except.ok n
  | .bool b => Except.ok (if b then 1 else 0)
  | .str s =>
      match parseIntStr s with
      | some n => Except.ok n
      | Option.none => Except.error "ValueError: invalid literal for int()"
  | _ => Except.error "TypeError: int() argument is not int, bool or str"

/-- `int(x or 0)` — a falsy value counts as zero. -/
def pyToInt0 (v : Val) : Except String Int := pyToInt (pyOr v (Val.int 0))

/-- `_normalize_value` (`helpers.py`): numeric strings become ints
(`isdigit`, or a leading minus followed by digits); other values pass
through.  (The float fallback of the source is not modelled — no claim
touches float-typed pass-through fields, and the concrete inputs used here
contain none.) -/
def normalize_value : Val → Val
  | .str s =>
      if s.length > 0 && s.toList.all (fun c => c.isDigit) then
        match parseIntStr s with
        | some n => Val.int n
        | Option.none => Val.str s
      else if s.length > 1 && s.toList.head? = some '-' &&
          (s.toList.drop 1).all (fun c => c.isDigit) then
        match parseIntStr s with
        | some n => Val.int n
        | Option.none => Val.str s
      else Val.str s
  | v => v

/-- `datetime.fromtimestamp(ts, tz)` for the run's fixed-offset timezone
(`tzoff` seconds east of UTC): epoch seconds → local wall-clock
microseconds since 0001-01-01 (719162 days before 1970-01-01). -/
def fromtimestamp (tzoff ts : Int) : Int := (719162 * 86400 + ts + tzoff) * 1000000

/-- One booking from the index, merged with its fetched detail
(`get_booking(...)["items"] or {}`): the stringified booking id, the raw
`customer_id` value, and the line-id → raw-line map. -/
structure CFBooking where
  booking_id : String
  customer_id : Val
  items : List (String × Val)
deriving DecidableEq, Repr

/-- The fixed keys of a `flat_booking` row; raw line keys outside this set
pass through (`if k not in flat_booking`). -/
def flatFixedKeys : List String := ["booking_id", "customer_id", "line_id", "sku", "qty", "start", "end"]

/-- Build the `flat_booking` row (`extract_checkfront_data` lines 392–405). -/
def mkFlatBooking (bid : String) (cidV : Val) (lid sku : String) (qty : Int)
    (ostart oend : Int) (line : Val) : FlatBooking :=
  { booking_id := bid,
    customer_id := if pyTruthy cidV then Val.str (pyStrOf cidV) else Val.none,
    line_id := lid, sku := sku, qty := qty, start := ostart, endT := oend,
    extra := ((valPairs line).filter (fun p => !flatFixedKeys.contains p.1)).map
      (fun p => (p.1, normalize_value p.2)) }

/-- Append the flat booking to the slot at `key` and track its customer
(lines 390–413): `slot.customers[cid] = customer` when the customer dict is
truthy and `cid := customer.get("id") or str(customer_id)` is truthy. -/
def attachToSlot (B : Buckets) (key : String × Int) (flat : FlatBooking)
    (customer cidV : Val) : Buckets :=
  B.map (fun p =>
    if p.1 = key then
      (p.1,
        { p.2 with
          booking_items := p.2.booking_items ++ [flat],
          customers :=
            if pyTruthy customer then
              (if pyTruthy (pyOr (dictGet customer "id") (Val.str (pyStrOf cidV))) then
                assocSetVal p.2.customers
                  (pyOr (dictGet customer "id") (Val.str (pyStrOf cidV))) customer
              else p.2.customers)
            else p.2.customers })
    else p)

/-- The per-day body of the booking attachment loop (lines 376–413): create
the aggregate on demand — `items_by_sku[sku]` raising `KeyError` when the
sku is absent from the catalog — then attach the flat booking. -/
def attach_occ (items_by_sku : List (String × CFItem)) (bid : String)
    (cidV customer : Val) (line : Val) (lid sku : String) (qty : Int)
    (B : Buckets) (occ : Int × Int) : Except String Buckets :=
  (if containsKey B (sku, dateOf occ.1) then Except.ok B
   else
     match (items_by_sku.find? (fun p => p.1 = sku)).map (fun p => p.2) with
     | Option.none => Except.error "KeyError: sku not found in items_by_sku"
     | some item =>
         Except.ok (B ++ [((sku, dateOf occ.1),
           { sku := sku, start_date := dateOf occ.1, start := occ.1, endT := some occ.2,
             total_places := Option.none, unlimited := false, item := item,
             booking_items := [], customers := [] })])) >>= fun B1 =>
  Except.ok (attachToSlot B1 (sku, dateOf occ.1)
    (mkFlatBooking bid cidV lid sku qty occ.1 occ.2 line) customer cidV)

/-- The per-line body of the booking pass (`extract_checkfront_data` lines
352–413): skip non-dict entries, voided lines, blank-sku or non-positive-qty
lines, and lines with a `None` start/end or a reservation window not
overlapping the query window; a non-string `sku` value or an unparseable
`qty`/timestamp raises.  A surviving line is attached to one aggregate per
day of its reservation window. -/
def process_line (items_by_sku : List (String × CFItem)) (tzoff ws we : Int)
    (bid : String) (cidV customer : Val) (B : Buckets) (lid : String) (line : Val) :
    Except String Buckets :=
  if !isDictVal line then Except.ok B
  else if dictGet line "status_id" = Val.str "VOID" then Except.ok B
  else
    (match dictGet line "sku" with
     | Val.str s => Except.ok (pyStrip s)
     | _ => Except.error "AttributeError: object has no attribute strip") >>= fun sku =>
    pyToInt (dictGet line "qty") >>= fun qty =>
    if sku = "" || qty ≤ 0 then Except.ok B
    else if dictGet line "start_date" = Val.none || dictGet line "end_date" = Val.none then
      Except.ok B
    else
      pyToInt (dictGet line "start_date") >>= fun sdi =>
      pyToInt (dictGet line "end_date") >>= fun edi =>
      if fromtimestamp tzoff edi ≤ ws || fromtimestamp tzoff sdi ≥ we then Except.ok B
      else
        (item_daily_occurrences (fromtimestamp tzoff sdi) (fromtimestamp tzoff edi)).foldlM
          (attach_occ items_by_sku bid cidV customer line lid sku qty) B

/-- The per-booking body (lines 344–351): resolve the customer once per
booking (`get_customer(str(customer_id)) if customer_id else None` —
`custOf` is the resolved-customer oracle, cf. `get_customer`'s per-run
cache), then process each line of the booking detail. -/
def process_booking (items_by_sku : List (String × CFItem)) (custOf : String → Val)
    (tzoff ws we : Int) (B : Buckets) (bk : CFBooking) : Except String Buckets :=
  let customer := if pyTruthy bk.customer_id then custOf (pyStrOf bk.customer_id) else Val.none
  bk.items.foldlM
    (fun B p => process_line items_by_sku tzoff ws we bk.booking_id bk.customer_id customer B p.1 p.2)
    B

/-- The whole booking pass of `extract_checkfront_data`. -/
def process_bookings (items_by_sku : List (String × CFItem)) (custOf : String → Val)
    (tzoff ws we : Int) (B : Buckets) (bookings : List CFBooking) : Except String Buckets :=
  bookings.foldlM (process_booking items_by_sku custOf tzoff ws we) B

/- ===================== cf_middle_layer.py : slots_to_json_ready ===================== -/

/-- One configured time rule (`CONFIG["time_rules"]` entries).  The source
reads `start_minute`/`end_minute` with `.get(..., 0)`; the default is folded
into the value here. -/
structure TimeRule where
  start_hour : Int
  start_minute : Int
  end_hour : Int
  end_minute : Int
  overnight : Bool
deriving DecidableEq, Repr

/-- The `time_rules` configuration: SKU overrides (in dict order) and the
per-category defaults. -/
structure TimeRules where
  sku_overrides : List (String × TimeRule)
  default_by_category : List (String × TimeRule)
deriving DecidableEq, Repr

/-- `_get_rule_for`: a case-insensitive SKU override (first match in dict
order) wins; otherwise the category default (`category = (item.get("category")
or "").strip()`). -/
def get_rule_for (rules : TimeRules) (item : CFItem) : Option TimeRule :=
  let category := pyStrip (item.category.getD "")
  let sku := pyStrip item.sku
  match (if sku ≠ "" then
      rules.sku_overrides.find? (fun p => pyLower p.1 = pyLower sku)
    else Option.none) with
  | some p => some p.2
  | Option.none => (rules.default_by_category.find? (fun p => p.1 = category)).map (fun p => p.2)

/-- `_apply_times`: `dt.replace(hour=h, minute=m, second=0, microsecond=0)`. -/
def apply_times (t h m : Int) : Int := (t / DAYU) * DAYU + (h * 3600 + m * 60) * 1000000

/-- `apply_time_rule`: no matching rule leaves the slot alone; a matching
rule rewrites start and end to the configured times (raising
`AttributeError` when `slot.end` is `None`) and pushes the end to the next
day when it does not fall after the start (the source's overnight and
same-day branches are textually identical). -/
def apply_time_rule (rules : TimeRules) (slot : SlotAggregate) : Except String SlotAggregate :=
  match get_rule_for rules slot.item with
  | Option.none => Except.ok slot
  | some rule =>
      match slot.endT with
      | Option.none => Except.error "AttributeError: NoneType has no attribute replace"
      | some e =>
          let s1 := apply_times slot.start rule.start_hour rule.start_minute
          let e1 := apply_times e rule.end_hour rule.end_minute
          Except.ok { slot with start := s1, endT := some (if e1 ≤ s1 then e1 + DAYU else e1) }

/-- `param_totals.get(key, 0) + qty` assignment: update in place, else
append (Python dict assignment keeps insertion order). -/
def assocAdd (l : List (String × Int)) (k : String) (q : Int) : List (String × Int) :=
  if l.any (fun p => p.1 = k) then l.map (fun p => if p.1 = k then (p.1, p.2 + q) else p)
  else l ++ [(k, q)]

/-- The `group_totals` update: create the `{"total_qty": 0, "emails": set()}`
entry on first sight, add the quantity, and add a truthy email to the set
(sets deduplicate; order is fixed by the final `sorted`). -/
def groupAdd (g : List (Val × (Int × List Val))) (grp : Val) (q : Int) (email : Val) :
    List (Val × (Int × List Val)) :=
  let g1 := if g.any (fun p => p.1 = grp) then g else g ++ [(grp, (0, []))]
  g1.map (fun p =>
    if p.1 = grp then
      (p.1, (p.2.1 + q,
        if pyTruthy email && !p.2.2.contains email then p.2.2 ++ [email] else p.2.2))
    else p)

/-- `sorted(list(emails))` on the collected email set: Python sorts the
strings (a non-string member would make `sorted` raise); the list is already
deduplicated at insertion. -/
def sortEmails (es : List Val) : Except String (List Val) :=
  if es.all (fun v => match v with | .str _ => true | _ => false) then
    Except.ok ((stableSort (fun a b => a ≤ b)
      (es.map (fun v => match v with | .str s => s | _ => ""))).map Val.str)
  else Except.error "TypeError: unorderable types in sorted()"

/-- The in-file tag flattening of `slots_to_json_ready` (lines 472–478):
dicts contribute their string `name` value (unstripped, unlike the helper),
plain strings pass through, anything else is dropped. -/
def flatten_tags (raw : List Val) : List String :=
  raw.filterMap (fun t =>
    if isDictVal t then
      match dictGet t "name" with
      | .str s => some s
      | _ => Option.none
    else match t with
      | .str s => some s
      | _ => Option.none)

/-- The running state of the per-slot booking loop of `slots_to_json_ready`. -/
structure ProjAcc where
  bookings : List FlatBooking
  param_totals : List (String × Int)
  total_booked : Int
  group_totals : List (Val × (Int × List Val))
deriving DecidableEq, Repr

/-- The body of the `for bi in slot.booking_items` loop (lines 436–463):
append the row, fold the line's `param` quantities into `param_totals`
(`params.items()` / `p.get` raising on truthy non-dict values), add
`int(bi.get("qty") or 0)` to `total_booked`, and fold the line's customer's
`meta` group and leader email into `group_totals` (`.get` on a truthy
non-dict customer or meta raises). -/
def project_step (slot : SlotAggregate) (acc : ProjAcc) (bi : FlatBooking) :
    Except String ProjAcc :=
  (if isDictVal (pyOr (assocGetV bi.extra "param") Val.dnil) then
      Except.ok (valPairs (pyOr (assocGetV bi.extra "param") Val.dnil))
    else Except.error "AttributeError: params has no attribute items") >>= fun ps =>
  ps.foldlM (fun pt kp =>
      (if isDictVal kp.2 then Except.ok (dictGet kp.2 "qty")
       else Except.error "AttributeError: p has no attribute get") >>= fun qv =>
      pyToInt0 qv >>= fun q => Except.ok (assocAdd pt kp.1 q)) acc.param_totals >>= fun pt1 =>
  pyToInt0 (Val.int bi.qty) >>= fun q =>
  (if isDictVal (pyOr (if pyTruthy bi.customer_id then
        assocGetVal slot.customers bi.customer_id else Val.none) Val.dnil) then
      Except.ok (pyOr (dictGet (pyOr (if pyTruthy bi.customer_id then
        assocGetVal slot.customers bi.customer_id else Val.none) Val.dnil) "meta") Val.dnil)
    else Except.error "AttributeError: cust has no attribute get") >>= fun meta =>
  (if isDictVal meta then
      Except.ok (pyOr (dictGet meta "scout_group_booking") (Val.str "Unknown"),
        pyOr (dictGet meta "your_leaders_email_address") Val.none)
    else Except.error "AttributeError: meta has no attribute get") >>= fun ge =>
  Except.ok
    { bookings := acc.bookings ++ [bi],
      param_totals := pt1,
      total_booked := acc.total_booked + q,
      group_totals := groupAdd acc.group_totals ge.1 q ge.2 }

/-- One projected record of `slots_to_json_ready` (the `slot_dict` keys the
claims read; `item`, `customers` and the string rendering of dates carry
through unchanged and are kept in their source form). -/
structure SlotRecord where
  sku : String
  date : Int
  start : Option Int
  endT : Option Int
  unlimited : Bool
  total_places : Option Int
  total_booked : Int
  available_places : Option Int
  param_totals : List (String × Int)
  group_totals : List (Val × (Int × List Val))
  tags : List String
  item : CFItem
  bookings : List FlatBooking
  customers : List (Val × Val)
deriving DecidableEq, Repr

/-- The per-`(sku, date)` body of `slots_to_json_ready`: fold the booking
items, sort each group's emails, apply the time rule, and assemble the
record (`available_places = int(total_places or 0) - int(total_booked or 0)`
unless unlimited; a datetime is always truthy, so `start`/`end` are null only
when the aggregate's end is). -/
def project_slot (rules : TimeRules) (key : String × Int) (slot : SlotAggregate) :
    Except String SlotRecord :=
  slot.booking_items.foldlM (project_step slot)
    { bookings := [], param_totals := [], total_booked := 0, group_totals := [] } >>= fun acc =>
  acc.group_totals.mapM (fun p =>
      (sortEmails p.2.2).map (fun es => (p.1, (p.2.1, es)))) >>= fun gt =>
  apply_time_rule rules slot >>= fun slot1 =>
  Except.ok
    { sku := key.1, date := key.2,
      start := some slot1.start, endT := slot1.endT,
      unlimited := decide (slot.item.unlimited = some 1),
      total_places := slot.item.stock,
      total_booked := acc.total_booked,
      available_places :=
        if slot.item.unlimited = some 1 then Option.none
        else some (slot.item.stock.getD 0 - acc.total_booked),
      param_totals := acc.param_totals,
      group_totals := gt,
      tags := flatten_tags slot.item.tags,
      item := slot.item,
      bookings := acc.bookings,
      customers := slot.customers }

/-- `slots_to_json_ready`: project every bucket, then sort by start
(the source compares `s.get("start") or ""` ISO strings; for the fixed-offset
datetimes of one run the empty string is smallest and ISO order is
chronological order, which this key order reproduces). -/
def slots_to_json_ready (rules : TimeRules) (slots : Buckets) :
    Except String (List SlotRecord) :=
  (slots.mapM (fun p => project_slot rules p.1 p.2)).map
    (stableSort (fun a b =>
      match a.start, b.start with
      | Option.none, _ => true
      | some _, Option.none => false
      | some s, some t => s ≤ t))

/- ===================== cf_client.py : get_customer ===================== -/

/-- `CheckfrontClient.get_customer`: a cache hit returns the cached value
with no remote request; a miss issues one request (`remote` is the
`_request` oracle for this run), defensively extracts `data["customer"]`
when it is a dict and the empty dict otherwise, stores the result under the
id, and returns it.  The result is the value, the updated cache, and the
number of remote requests issued by the call. -/
def get_customer (remote : String → Val) (cache : List (String × Val)) (cid : String) :
    Val × List (String × Val) × Nat :=
  match cache.find? (fun p => p.1 = cid) with
  | some p => (p.2, cache, 0)
  | Option.none =>
      let cust := if isDictVal (dictGet (remote cid) "customer") then
          dictGet (remote cid) "customer" else Val.dnil
      (cust, cache ++ [(cid, cust)], 1)

/- ===================== supporting lemmas for the booking pass ===================== -/

/-- Inverting a successful `Except` bind. -/
theorem except_ok_of_bind {α β : Type} {x : Except String α} {f : α → Except String β} {c : β}
    (h : (x >>= f) = Except.ok c) : ∃ b, x = Except.ok b ∧ f b = Except.ok c := by
  cases x with
  | ok b => exact ⟨b, rfl, h⟩
  | error e => rw [except_bind_error] at h; cases h

/-- `int((q : int) or 0) = q`. -/
theorem pyToInt0_int (n : Int) : pyToInt0 (Val.int n) = Except.ok n := by
  unfold pyToInt0 pyOr
  by_cases h : n = 0
  · simp [pyTruthy, h, pyToInt]
  · simp [pyTruthy, h, pyToInt]

/-- One projection step adds exactly the line's quantity to `total_booked`. -/
theorem project_step_total (slot : SlotAggregate) (acc a1 : ProjAcc) (bi : FlatBooking)
    (h : project_step slot acc bi = Except.ok a1) :
    a1.total_booked = acc.total_booked + bi.qty := by
  unfold project_step at h
  obtain ⟨ps, hps, h⟩ := except_ok_of_bind h
  obtain ⟨pt1, hpt, h⟩ := except_ok_of_bind h
  obtain ⟨q, hq, h⟩ := except_ok_of_bind h
  obtain ⟨meta, hm, h⟩ := except_ok_of_bind h
  obtain ⟨ge, hg, h⟩ := except_ok_of_bind h
  rw [pyToInt0_int] at hq
  cases hq
  cases h
  rfl

/-- The booking-item fold accumulates the exact sum of quantities. -/
theorem project_fold_total (slot : SlotAggregate) :
    ∀ (l : List FlatBooking) (acc0 acc : ProjAcc),
      l.foldlM (project_step slot) acc0 = Except.ok acc →
      acc.total_booked = acc0.total_booked + (l.map (fun b => b.qty)).sum
  | [], acc0, acc, h => by
      rw [List.foldlM_nil] at h
      cases h
      simp
  | b :: l, acc0, acc, h => by
      rw [List.foldlM_cons] at h
      obtain ⟨a1, h1, h2⟩ := except_ok_of_bind h
      have hrec := project_fold_total slot l a1 acc h2
      have hstep := project_step_total slot acc0 a1 b h1
      rw [hrec, hstep]
      simp [List.sum_cons]
      ring

/- ===================== concrete data for the booking-pass claims ===================== -/

/-- POSIX epoch seconds of local midnight of a calendar day (offset zero). -/
def epochOf (y m d : Nat) : Int := ((dateOrdinal y m d : Int) - 719163) * 86400

/-- A plain bookable item under SKU `"S"`. -/
def bwItem : CFItem :=
  { item_id := "1", sku := "S", category := some "c1", stock := some 10,
    unlimited := some 0, visibility := some "*", status := some "A", tags := [] }

/-- The catalog index by SKU used by the booking-pass scenarios. -/
def bwIbs : List (String × CFItem) := [("S", bwItem)]

/-- The resolved-customer oracle used by the booking-pass scenarios. -/
def bwCust : String → Val := fun _ => Val.dict [("id", Val.str "CU1")]

/-- The three skip rules exactly as the claim lists them: voided status,
non-positive (parsed) quantity, missing start/end. -/
def threeRuleSkip (line : Val) : Bool :=
  (dictGet line "status_id" = Val.str "VOID") ||
  (match pyToInt (dictGet line "qty") with
   | Except.ok q => decide (q ≤ 0)
   | Except.error _ => false) ||
  (dictGet line "start_date" = Val.none || dictGet line "end_date" = Val.none)

/-- A non-void line whose SKU strips to the empty string: qty 2, both dates
present and inside the query window. -/
def c4xLine : Val := Val.dict [("status_id", Val.str "PAID"), ("sku", Val.str "  "),
  ("qty", Val.str "2"), ("start_date", Val.int (epochOf 2025 1 2)),
  ("end_date", Val.int (epochOf 2025 1 3))]

/-- C4, counterexample: the blank-after-strip SKU line is silently dropped
(`if not sku or qty <= 0: continue`) although none of the claim's three skip
rules (voided, non-positive quantity, missing start/end) applies to it. -/
theorem C4_counterexample :
    process_line bwIbs 0 (mkDT 2025 1 1) (mkDT 2025 1 15) "77" Val.none Val.none [] "900" c4xLine
      = Except.ok []
    ∧ threeRuleSkip c4xLine = false := by
  exact ⟨rfl, rfl⟩

/-- The attached flat booking of the C4 conservation scenario. -/
def c4wFlat : FlatBooking :=
  { booking_id := "77", customer_id := Val.none, line_id := "900", sku := "S",
    qty := 2, start := mkDT 2025 1 2, endT := mkDT 2025 1 2, extra := [] }

/-- A concrete aggregate holding the one booking line. -/
def c4wSlot : SlotAggregate :=
  { sku := "S", start_date := dateOf (mkDT 2025 1 2), start := mkDT 2025 1 2,
    endT := some (mkDT 2025 1 2), total_places := some 10, unlimited := false,
    item := bwItem, booking_items := [c4wFlat], customers := [] }

/-- An empty time-rule configuration. -/
def c4wRules : TimeRules := { sku_overrides := [], default_by_category := [] }

/-- The record `slots_to_json_ready` projects from `c4wSlot`. -/
def c4wRec : SlotRecord :=
  { sku := "S", date := dateOf (mkDT 2025 1 2),
    start := some (mkDT 2025 1 2), endT := some (mkDT 2025 1 2),
    unlimited := false, total_places := some 10, total_booked := 2,
    available_places := some 8, param_totals := [],
    group_totals := [(Val.str "Unknown", (2, []))], tags := [],
    item := bwItem, bookings := [c4wFlat], customers := [] }

/-- A voided booking line (inside the query window, SKU and qty valid). -/
def c4wVoid : Val := Val.dict [("status_id", Val.str "VOID"), ("sku", Val.str "S"),
  ("qty", Val.str "2"), ("start_date", Val.int (epochOf 2025 1 2)),
  ("end_date", Val.int (epochOf 2025 1 3))]

/-- C4, amended: for every projected record, `total_booked` equals the exact
sum of `qty` over the booking line items attached to that `(sku, date)`
aggregate; and a dict booking line is dropped unchanged when it is voided,
when its stripped SKU is blank or its parsed quantity is non-positive, or
when (SKU and quantity passing) its start or end date is `None`.  (The
claim's list of exactly three skip rules misses the blank-SKU drop, and a
line missing the `sku` field or carrying an unparseable quantity aborts
instead of being skipped — see the counterexample.) -/
theorem C4_booking_conservation_amended
    (rules : TimeRules) (key : String × Int) (slot : SlotAggregate) (r : SlotRecord)
    (hok : project_slot rules key slot = Except.ok r) :
    r.total_booked = (slot.booking_items.map (fun b => b.qty)).sum
  ∧ ∀ (ibs : List (String × CFItem)) (tzoff ws we : Int) (bid : String)
      (cidV customer : Val) (B : Buckets) (lid : String) (line : Val),
      isDictVal line = true →
      (dictGet line "status_id" = Val.str "VOID"
        ∨ (∃ s q, dictGet line "sku" = Val.str s
            ∧ pyToInt (dictGet line "qty") = Except.ok q
            ∧ (pyStrip s = "" ∨ q ≤ 0))
        ∨ (∃ s q, dictGet line "sku" = Val.str s
            ∧ pyToInt (dictGet line "qty") = Except.ok q
            ∧ pyStrip s ≠ "" ∧ ¬ q ≤ 0
            ∧ (dictGet line "start_date" = Val.none ∨ dictGet line "end_date" = Val.none))) →
      process_line ibs tzoff ws we bid cidV customer B lid line = Except.ok B := by
  constructor
  · unfold project_slot at hok
    obtain ⟨acc, hacc, h2⟩ := except_ok_of_bind hok
    obtain ⟨gt, hgt, h3⟩ := except_ok_of_bind h2
    obtain ⟨slot1, hs1, h4⟩ := except_ok_of_bind h3
    cases h4
    have := project_fold_total slot slot.booking_items _ acc hacc
    simpa using this
  · intro ibs tzoff ws we bid cidV customer B lid line hdict hcase
    unfold process_line
    rw [hdict]
    simp only [Bool.not_true, Bool.false_eq_true, if_false]
    rcases hcase with hv | ⟨s, q, hs, hq, hor⟩ | ⟨s, q, hs, hq, hns, hq0, hdates⟩
    · rw [if_pos hv]
    · by_cases hv : dictGet line "status_id" = Val.str "VOID"
      · rw [if_pos hv]
      · rw [if_neg hv, hs, hq]
        simp only [except_bind_ok]
        rcases hor with h | h <;> simp [h]
    · by_cases hv : dictGet line "status_id" = Val.str "VOID"
      · rw [if_pos hv]
      · rw [if_neg hv, hs, hq]
        simp only [except_bind_ok]
        rw [if_neg (by simp [hns, hq0])]
        rcases hdates with h | h <;> simp [h]

/-- C4 at concrete data: the projected record of `c4wSlot` totals exactly its
one line's quantity, and a voided in-window line is dropped unchanged. -/
theorem C4_booking_conservation_amended_witness :
    c4wRec.total_booked = (c4wSlot.booking_items.map (fun b => b.qty)).sum
    ∧ process_line bwIbs 0 (mkDT 2025 1 1) (mkDT 2025 1 15) "77" Val.none Val.none [] "900" c4wVoid
        = Except.ok [] := by
  have H := C4_booking_conservation_amended c4wRules ("S", dateOf (mkDT 2025 1 2))
    c4wSlot c4wRec (by decide)
  exact ⟨H.1, H.2 bwIbs 0 (mkDT 2025 1 1) (mkDT 2025 1 15) "77" Val.none Val.none [] "900"
    c4wVoid (by decide) (Or.inl (by decide))⟩

/-- The C5 booking line: reservation 2024-12-30 .. 2025-01-02, overlapping a
query window that starts 2025-01-01. -/
def c5xLine : Val := Val.dict [("status_id", Val.str "PAID"), ("sku", Val.str "S"),
  ("qty", Val.str "2"), ("start_date", Val.int (epochOf 2024 12 30)),
  ("end_date", Val.int (epochOf 2025 1 2))]

/-- The C5 booking holding that line. -/
def c5xBk : CFBooking :=
  { booking_id := "77", customer_id := Val.int 5, items := [("900", c5xLine)] }

/-- C5, counterexample: the booking pass expands a line over its whole
reservation window (only whole-window overlap with the query window is
tested), so the run creates an aggregate dated 2024-12-30, strictly before
window_start 2025-01-01. -/
theorem C5_counterexample :
    (process_bookings bwIbs bwCust 0 (mkDT 2025 1 1) (mkDT 2025 1 15) [] [c5xBk]).map
        (fun B => containsKey B ("S", dateOf (mkDT 2024 12 30))) = Except.ok true
    ∧ dateOf (mkDT 2024 12 30) < dateOf (mkDT 2025 1 1) := by
  exact ⟨rfl, by decide⟩

/-- C5, amended: the event-driven weekly expansion and the daily fallback
only generate occurrence starts inside `[window_start, window_end)`; the
day-granularity occurrences derived from a booking line, however, cover the
line's whole reservation window, so they can fall outside the query window
(see the counterexample). -/
theorem C5_window_amended :
    (∀ s ws we t : Int, ∀ target : Nat, target < 7 →
        t ∈ weekday_occurrences s ws we target → ws ≤ t ∧ t < we)
  ∧ (∀ ws we : Int, ∀ p : Int × Int, p ∈ item_daily_occurrences ws we →
        ws ≤ p.1 ∧ p.1 < we) := by
  constructor
  · intro s ws we t target ht hmem
    have h := (mem_weekday_occurrences s ws we target ht t).mp hmem
    exact ⟨h.2.2.2.1, h.2.2.2.2⟩
  · intro ws we p hmem
    obtain ⟨t, u⟩ := p
    have h := (mem_item_daily_occurrences ws we t u).mp hmem
    exact mem_emitDaily_bounds we ws t h.1

/-- C5 at concrete data: the weekly expansion of Mondays from anchor
2025-01-01 stays inside the window `[2025-01-01, 2025-01-15)` at the
occurrence 2025-01-06, and so does the first daily-fallback day. -/
theorem C5_window_amended_witness :
    (mkDT 2025 1 1 ≤ mkDT 2025 1 6 ∧ mkDT 2025 1 6 < mkDT 2025 1 15)
    ∧ (mkDT 2025 1 1 ≤ mkDT 2025 1 1 ∧ mkDT 2025 1 1 < mkDT 2025 1 15) := by
  constructor
  · exact C5_window_amended.1 (mkDT 2025 1 1) (mkDT 2025 1 1) (mkDT 2025 1 15)
      (mkDT 2025 1 6) 0 (by decide) (by decide)
  · exact C5_window_amended.2 (mkDT 2025 1 1) (mkDT 2025 1 15)
      (mkDT 2025 1 1, mkDT 2025 1 1) (by decide)

/-- A booking line with no `sku` field at all (otherwise valid, in-window). -/
def c8noSku : Val := Val.dict [("status_id", Val.str "PAID"),
  ("qty", Val.str "1"), ("start_date", Val.int (epochOf 2025 1 2)),
  ("end_date", Val.int (epochOf 2025 1 3))]

/-- A valid in-window line whose SKU `"ZZ"` is absent from the catalog. -/
def c8unknown : Val := Val.dict [("status_id", Val.str "PAID"), ("sku", Val.str "ZZ"),
  ("qty", Val.str "1"), ("start_date", Val.int (epochOf 2025 1 2)),
  ("end_date", Val.int (epochOf 2025 1 3))]

/-- A booking whose first line is malformed and whose second line is valid. -/
def c8xBk : CFBooking :=
  { booking_id := "78", customer_id := Val.none,
    items := [("901", c8noSku), ("902", c5xLine)] }

/-- C8: per-record error absorption does not happen.  A line without a `sku`
field raises (`None.strip()` — AttributeError) instead of being skipped with
a diagnostic; a line whose SKU is not in the catalog index raises
(`items_by_sku[sku]` — KeyError) instead of being aggregated best-effort;
and either failure aborts the whole booking pass, leaving the remaining
valid lines unprocessed. -/
theorem C8_error_absorption_bug :
    process_line bwIbs 0 (mkDT 2025 1 1) (mkDT 2025 1 15) "78" Val.none Val.none [] "901" c8noSku
      = Except.error "AttributeError: object has no attribute strip"
  ∧ process_line bwIbs 0 (mkDT 2025 1 1) (mkDT 2025 1 15) "78" Val.none Val.none [] "902" c8unknown
      = Except.error "KeyError: sku not found in items_by_sku"
  ∧ process_bookings bwIbs bwCust 0 (mkDT 2025 1 1) (mkDT 2025 1 15) [] [c8xBk]
      = Except.error "AttributeError: object has no attribute strip" := by
  exact ⟨rfl, rfl, rfl⟩

/-- C10: the customer lookup negatively caches and never returns `None` —
a cache miss whose response lacks a dict-shaped `customer` record stores and
returns the empty dict with exactly one remote request; any later call with
the same id returns the first call's value from the cache with no request;
and on a cache whose entries are all dict-shaped the result is always
dict-shaped. -/
theorem C10_customer_cache (remote : String → Val) (cache : List (String × Val)) (cid : String) :
    (cache.find? (fun p => p.1 = cid) = Option.none →
      isDictVal (dictGet (remote cid) "customer") = false →
      get_customer remote cache cid = (Val.dnil, cache ++ [(cid, Val.dnil)], 1))
  ∧ (∀ v c' n, get_customer remote cache cid = (v, c', n) →
      get_customer remote c' cid = (v, c', 0))
  ∧ ((∀ p, p ∈ cache → isDictVal p.2 = true) →
      isDictVal (get_customer remote cache cid).1 = true) := by
  refine ⟨?_, ?_, ?_⟩
  · intro hmiss hbad
    unfold get_customer
    rw [hmiss, hbad]
    rfl
  · intro v c' n h
    unfold get_customer at h ⊢
    cases hf : cache.find? (fun p => p.1 = cid) with
    | some p =>
        rw [hf] at h
        cases h
        rw [hf]
    | none =>
        rw [hf] at h
        cases h
        rw [List.find?_append, hf]
        simp
  · intro hall
    unfold get_customer
    cases hf : cache.find? (fun p => p.1 = cid) with
    | some p =>
        exact hall p (List.mem_of_find?_eq_some hf)
    | none =>
        cases hbad : isDictVal (dictGet (remote cid) "customer") with
        | true => simp [hbad]
        | false => simp [hbad, isDictVal]

/-- C10 at concrete data: a first lookup of id `"7"` against a response whose
`customer` field is not a dict returns and caches `{}` with one request, and
the repeat lookup is served from the cache with none. -/
theorem C10_customer_cache_witness :
    get_customer (fun _ => Val.dict [("customer", Val.int 3)]) [] "7"
      = (Val.dnil, [("7", Val.dnil)], 1)
    ∧ get_customer (fun _ => Val.dict [("customer", Val.int 3)]) [("7", Val.dnil)] "7"
      = (Val.dnil, [("7", Val.dnil)], 0) := by
  have h1 := (C10_customer_cache (fun _ => Val.dict [("customer", Val.int 3)]) [] "7").1
    (by decide) (by decide)
  have h2 := (C10_customer_cache (fun _ => Val.dict [("customer", Val.int 3)]) [] "7").2.1
    Val.dnil [("7", Val.dnil)] 1 h1
  exact ⟨h1, h2⟩
